import Mathlib

/-
Verification of the Archiveopteryx core against its specification.

Shallow embedding of the relevant parts of the source tree:
  * src/server/mailbox.cpp   (mailbox registry, uidnext, view())
  * src/server/eventloop.cpp (garbage-collection pacing)
  * src/message/header.cpp   (Header::verify, Header::add)
  * src/message/flag.cpp     (Flag::add / Flag::id / Flag::name)
  * src/message/helperrowcreator.cpp (savepoint-guarded interning)
  * src/message/fetcher.cpp  (Fetcher::prepareBatch sizing)
  * src/aox/undelete.cpp     (undelete -n dry run)

Machine integers in the source are C unsigned ints; they are modelled as
Nat (the quantities involved - uids, batch sizes, byte counts, ids -
never approach 2^32 in the code paths embedded here, and the source
performs no intentional wraparound in them).
-/

namespace Aox

/-! ## Mailbox registry (src/server/mailbox.cpp) -/

/-- Mailbox::Type from mailbox.h: Synthetic, Ordinary, Deleted or View. -/
inductive MailboxType where
  | Synthetic
  | Ordinary
  | Deleted
  | View
deriving DecidableEq, Repr

/-- In-memory per-mailbox state, mirroring MailboxData: name, type, id,
uidnext, uidvalidity, owner.  The watcher list is abstracted to the
count of watcher notifications fired (Mailbox::setUidnext runs every
watcher exactly once when the value changes). -/
structure MailboxState where
  name : String
  mtype : MailboxType
  id : Nat
  uidnext : Nat
  uidvalidity : Nat
  owner : Nat
  notifications : Nat
deriving DecidableEq, Repr

/-- MailboxData's constructor: type Synthetic, all numeric fields 0. -/
def MailboxState.init (name : String) : MailboxState :=
  { name := name, mtype := .Synthetic, id := 0, uidnext := 0,
    uidvalidity := 0, owner := 0, notifications := 0 }

/-- Mailbox::setUidnext: returns unchanged if the value is equal,
otherwise installs the new value (no monotonicity check: the source
comment says the function "gives you total liberty") and runs the
watchers. -/
def MailboxState.setUidnext (m : MailboxState) (n : Nat) : MailboxState :=
  if n = m.uidnext then m
  else { m with uidnext := n, notifications := m.notifications + 1 }

/-- Mailbox::setType. -/
def MailboxState.setType (m : MailboxState) (t : MailboxType) : MailboxState :=
  { m with mtype := t }

/-- Mailbox::setId. -/
def MailboxState.setId (m : MailboxState) (i : Nat) : MailboxState :=
  { m with id := i }

/-- Mailbox::setOwner. -/
def MailboxState.setOwner (m : MailboxState) (n : Nat) : MailboxState :=
  { m with owner := n }

/-- Mailbox::setUidvalidity. -/
def MailboxState.setUidvalidity (m : MailboxState) (i : Nat) : MailboxState :=
  { m with uidvalidity := i }

/-- Mailbox::setDeleted: type becomes Deleted or Ordinary. -/
def MailboxState.setDeleted (m : MailboxState) (del : Bool) : MailboxState :=
  if del then { m with mtype := .Deleted } else { m with mtype := .Ordinary }

/-- Mailbox::synthetic. -/
def MailboxState.synthetic (m : MailboxState) : Bool :=
  m.mtype == .Synthetic

/-- Mailbox::ordinary. -/
def MailboxState.ordinary (m : MailboxState) : Bool :=
  m.mtype == .Ordinary

/-- Mailbox::deleted. -/
def MailboxState.deleted (m : MailboxState) : Bool :=
  m.mtype == .Deleted

/-- Mailbox::view, exactly as in the source (mailbox.cpp line 293):
it compares the type against Ordinary, not against View. -/
def MailboxState.view (m : MailboxState) : Bool :=
  m.mtype == .Ordinary

/-- One in-memory registry operation touching a single mailbox.
readerRow is the per-row body of MailboxReader::execute (setId, then
setType from the deleted flag and the view join, then uidvalidity,
then setUidnext, then setOwner when the owner column is non-null);
it is how setup, refresh, create and remove ultimately update the
in-memory object, since create and remove only enqueue SQL plus a
MailboxReader on the same transaction. -/
inductive MailboxOp where
  | setUidnext (n : Nat)
  | readerRow (id : Nat) (deletedCol : Bool) (viewNonNull : Bool)
      (uidvalidity : Nat) (uidnext : Nat) (owner : Option Nat)
  | setType (t : MailboxType)
  | setDeleted (del : Bool)
  | setOwner (n : Nat)
  | setId (i : Nat)
  | setUidvalidity (i : Nat)
deriving DecidableEq, Repr

/-- Applies one registry operation to one mailbox's in-memory state. -/
def applyOp (m : MailboxState) : MailboxOp → MailboxState
  | .setUidnext n => m.setUidnext n
  | .readerRow id deletedCol viewNonNull uidvalidity uidnext owner =>
      let m1 := m.setId id
      let m2 := if deletedCol then m1.setType .Deleted
                else if !viewNonNull then m1.setType .Ordinary
                else m1.setType .View
      let m3 := m2.setUidvalidity uidvalidity
      let m4 := m3.setUidnext uidnext
      match owner with
      | some o => m4.setOwner o
      | none => m4
  | .setType t => m.setType t
  | .setDeleted del => m.setDeleted del
  | .setOwner n => m.setOwner n
  | .setId i => m.setId i
  | .setUidvalidity i => m.setUidvalidity i

/-- Runs a sequence of registry operations. -/
def runOps (m : MailboxState) (ops : List MailboxOp) : MailboxState :=
  ops.foldl applyOp m

/-- The uidnext value an operation installs, if any: setUidnext and
reader rows install one, every other operation leaves uidnext alone. -/
def MailboxOp.uidValue : MailboxOp → Option Nat
  | .setUidnext n => some n
  | .readerRow _ _ _ _ uidnext _ => some uidnext
  | _ => none

/-- Decides whether applying the operation to a state with uidnext cur
cannot decrease uidnext: true when the operation installs no value or
installs one that is at least cur. -/
def okStep (cur : Nat) (op : MailboxOp) : Bool :=
  match op.uidValue with
  | none => true
  | some n => cur ≤ n

/-! ## Event loop garbage-collection pacing (src/server/eventloop.cpp) -/

/-- The garbage-collection decision at eventloop.cpp lines 276-281.
Inputs are the quantities the condition reads: d->stop; alloc, the
value of Allocator::allocated() sampled just after select() returned
(line 223); allocatedNow and inUse, the values of
Allocator::allocated() and Allocator::inUse() at the moment of the
check; now, the time_t taken just after select(); and gc, the time of
the previous collection.  Returns true exactly when Allocator::free()
is called. -/
def gcRuns (stop : Bool) (alloc allocatedNow inUse now gc : Nat) : Bool :=
  !stop &&
    ( (alloc != 0 && allocatedNow == alloc) ||
      (allocatedNow > 8*1024*1024 && allocatedNow * 5 > inUse) ||
      (now - gc > 60 && allocatedNow ≥ 131072) )

/-- The GC condition as the claim words it: (a) the last iteration
allocated and this one did not; (b) memory grew by more than 20% and
more than 8 MiB since the last GC; (c) at least 128 KiB allocated and
at least 60 seconds since the last GC.  The claim asserts gcRuns is
true iff this holds, with no proviso about stop(). -/
def gcClaimCondition (alloc allocatedNow inUse now gc : Nat) : Prop :=
  (alloc ≠ 0 ∧ allocatedNow = alloc) ∨
  (allocatedNow > 8*1024*1024 ∧ 5 * allocatedNow > inUse) ∨
  (allocatedNow ≥ 131072 ∧ now - gc ≥ 60)

instance (alloc allocatedNow inUse now gc : Nat) :
    Decidable (gcClaimCondition alloc allocatedNow inUse now gc) := by
  unfold gcClaimCondition; infer_instance

/-! ## Header fields (src/message/header.cpp, src/message/field.cpp) -/

/-- HeaderField::Type, the closed enumeration from field.h, in the
order of the fieldNames table in field.cpp.  Other is the catch-all
for unknown names and is the largest value, as in the source. -/
inductive FieldType where
  | From | ResentFrom | Sender | ResentSender | ReturnPath | ReplyTo
  | To | Cc | Bcc | ResentTo | ResentCc | ResentBcc
  | MessageId | ResentMessageId | InReplyTo | References
  | Date | OrigDate | ResentDate | Subject | Comments | Keywords
  | ContentType | ContentTransferEncoding | ContentDisposition
  | ContentDescription | ContentLanguage | ContentLocation
  | ContentBase | ContentMd5 | ContentId | MimeVersion | Received
  | Other
deriving DecidableEq, Repr

/-- Header::Mode: Rfc2822 or Mime. -/
inductive HeaderMode where
  | Rfc2822
  | Mime
deriving DecidableEq, Repr

/-- Modelled from the spec: the Address class (address.cpp is not part
of the sources given), an RFC 2822 address as a display-name,
localpart and domain triple. -/
structure Address where
  displayName : String
  localpart : String
  domain : String
deriving DecidableEq, Repr

/-- ASCII lowercasing of one character, as String::lower does per byte. -/
def asciiLowerChar (c : Char) : Char :=
  if 'A' ≤ c ∧ c ≤ 'Z' then Char.ofNat (c.toNat + 32) else c

/-- Modelled from the spec: String::lower (string.cpp is not part of
the sources given) lowercases the ASCII letters of a string, used for
case-insensitive name comparison. -/
def asciiLower (s : String) : String :=
  ⟨s.data.map asciiLowerChar⟩

/-- The identity under which two addresses are duplicates: exact
localpart, case-insensitive domain.  This is the comparison the
visible source uses for addresses (sameAddresses in header.cpp). -/
def addrKey (a : Address) : String × String :=
  (a.localpart, asciiLower a.domain)

/-- Worker for uniquify: drops any address whose key was already seen. -/
def uniquifyFrom (seen : List (String × String)) :
    List Address → List Address
  | [] => []
  | a :: rest =>
      if addrKey a ∈ seen then uniquifyFrom seen rest
      else a :: uniquifyFrom (addrKey a :: seen) rest

/-- Modelled from the spec: Address::uniquify (address.cpp is not part
of the sources given) removes duplicate addresses from a list, keeping
the first occurrence of each. -/
def uniquify (l : List Address) : List Address :=
  uniquifyFrom [] l

/-- One HeaderField as the Header-level code observes it: its type,
whether its own parse succeeded (HeaderField::valid), and - for
address fields - its address list. -/
structure HField where
  ftype : FieldType
  fvalid : Bool
  addresses : List Address
deriving DecidableEq, Repr

/-- A Header: a mode and an ordered list of fields (HeaderData). -/
structure Header where
  mode : HeaderMode
  fields : List HField
deriving DecidableEq, Repr

/-- An empty header in the given mode (Header::Header). -/
def Header.empty (m : HeaderMode) : Header :=
  { mode := m, fields := [] }

/-- Counts the fields of type t, as the occurrences array in
Header::verify does (only types below Other are tallied there, and
every type the conditions table consults is below Other). -/
def occurrences (t : FieldType) (h : Header) : Nat :=
  (h.fields.filter (fun f => f.ftype == t)).length

/-- One row of the conditions table in header.cpp (lines 356-380). -/
structure Condition where
  t : FieldType
  min : Nat
  max : Nat
  m : HeaderMode
deriving DecidableEq, Repr

/-- The conditions table from header.cpp, in source order, without the
Other end marker. -/
def conditions : List Condition :=
  [ ⟨.Sender, 0, 1, .Rfc2822⟩,
    ⟨.ReplyTo, 0, 1, .Rfc2822⟩,
    ⟨.To, 0, 1, .Rfc2822⟩,
    ⟨.Cc, 0, 1, .Rfc2822⟩,
    ⟨.Bcc, 0, 1, .Rfc2822⟩,
    ⟨.MessageId, 0, 1, .Rfc2822⟩,
    ⟨.References, 0, 1, .Rfc2822⟩,
    ⟨.Subject, 0, 1, .Rfc2822⟩,
    ⟨.From, 1, 1, .Rfc2822⟩,
    ⟨.Date, 1, 1, .Rfc2822⟩,
    ⟨.MimeVersion, 0, 1, .Rfc2822⟩,
    ⟨.MimeVersion, 0, 0, .Mime⟩,
    ⟨.ContentType, 0, 1, .Rfc2822⟩,
    ⟨.ContentType, 0, 1, .Mime⟩,
    ⟨.ContentTransferEncoding, 0, 1, .Rfc2822⟩,
    ⟨.ContentTransferEncoding, 0, 1, .Mime⟩,
    ⟨.ReturnPath, 0, 1, .Rfc2822⟩ ]

/-- The error Header::verify records, abstracted from its message
string: either the first individually-invalid field, or the first
cardinality condition violated, in table order. -/
inductive VerifyError where
  | fieldInvalid (t : FieldType)
  | cardinality (t : FieldType) (seen min max : Nat)
deriving DecidableEq, Repr

/-- Header::verify: scan the fields for the first invalid one; if all
are valid, scan the conditions table (in order, stopping at the first
violation) for a cardinality condition of the header's mode whose
count falls outside the min..max range. -/
def Header.verifyError (h : Header) : Option VerifyError :=
  match h.fields.find? (fun f => !f.fvalid) with
  | some f => some (.fieldInvalid f.ftype)
  | none =>
      match conditions.find? (fun c =>
          c.m == h.mode &&
          (occurrences c.t h < c.min || occurrences c.t h > c.max)) with
      | some c => some (.cardinality c.t (occurrences c.t h) c.min c.max)
      | none => none

/-- Header::valid: verify runs and the error stays empty. -/
def Header.valid (h : Header) : Bool :=
  h.verifyError.isNone

/-- The field types Header::add merges instead of appending:
To, Cc, Bcc, Reply-To and From (header.cpp lines 114-116). -/
def mergedAddressTypes : List FieldType :=
  [.To, .Cc, .Bcc, .ReplyTo, .From]

/-- Replaces the first field of type t by the same field with the new
addresses appended and the list uniquified, leaving the rest alone -
the effect of Header::add's merge branch on the field list. -/
def mergeFirst (t : FieldType) (addrs : List Address) :
    List HField → List HField
  | [] => []
  | f :: rest =>
      if f.ftype == t then
        { f with addresses := uniquify (f.addresses ++ addrs) } :: rest
      else
        f :: mergeFirst t addrs rest

/-- Header::add(HeaderField*): for To/Cc/Bcc/Reply-To/From, when a
field of the same type already exists (addressField(t) finds the
first one), the new field's addresses are appended to it, the list is
uniquified and the new field is discarded; otherwise the field is
appended to the list. -/
def Header.add (h : Header) (hf : HField) : Header :=
  if (hf.ftype == .To || hf.ftype == .Cc || hf.ftype == .Bcc ||
      hf.ftype == .ReplyTo || hf.ftype == .From) &&
     h.fields.any (fun f => f.ftype == hf.ftype) then
    { h with fields := mergeFirst hf.ftype hf.addresses h.fields }
  else
    { h with fields := h.fields ++ [hf] }

/-- Runs a sequence of Header::add calls. -/
def Header.addAll (h : Header) (hfs : List HField) : Header :=
  hfs.foldl Header.add h

/-- The addresses of the first field of type t, as
Header::addressField(t)->addresses() observes them. -/
def Header.addressesOf (h : Header) (t : FieldType) : Option (List Address) :=
  (h.fields.find? (fun f => f.ftype == t)).map (fun f => f.addresses)

/-! ## Flag interning (src/message/flag.cpp) -/

/-- The process-wide flag dictionaries: flagsByName maps lowercased
names to ids, flagsById maps ids to names with original case.  The
core Dict and Map containers (not among the given sources) are
modelled as association lists where the newest insertion shadows
older ones, which is what insert-then-find observes. -/
structure FlagsState where
  byName : List (String × Nat)
  byId : List (Nat × String)
deriving DecidableEq, Repr

/-- Flag::setup / Flag::reload: both dictionaries start empty. -/
def FlagsState.setup : FlagsState :=
  { byName := [], byId := [] }

/-- Flag::add(name, id): inserts id -> name into flagsById and
lower(name) -> id into flagsByName. -/
def FlagsState.add (st : FlagsState) (name : String) (id : Nat) : FlagsState :=
  { byName := (asciiLower name, id) :: st.byName,
    byId := (id, name) :: st.byId }

/-- Flag::id(name): looks up the lowercased name, 0 when absent. -/
def FlagsState.flagId (st : FlagsState) (name : String) : Nat :=
  match st.byName.find? (fun p => p.1 == asciiLower name) with
  | some p => p.2
  | none => 0

/-- Flag::name(id): looks up the id, empty string when absent. -/
def FlagsState.flagName (st : FlagsState) (id : Nat) : String :=
  match st.byId.find? (fun p => p.1 == id) with
  | some p => p.2
  | none => ""

/-- Replays a list of Flag::add calls from the freshly set-up state. -/
def buildFlags (adds : List (String × Nat)) : FlagsState :=
  adds.foldl (fun st p => st.add p.1 p.2) FlagsState.setup

/-! ## Helper-row creators (src/message/helperrowcreator.cpp) -/

/-- Outcome of one COPY attempt: success, failure whose error message
contains the constraint named at construction, or any other failure. -/
inductive CopyOutcome where
  | success
  | failConstraint
  | failOther
deriving DecidableEq, Repr

/-- One select-then-copy cycle of HelperRowCreator::execute, as the
environment resolves it: whether makeSelect() returned a query (some
names still uncached), whether makeCopy() returned one (some names
still uncached after processSelect), and how the COPY ended.  The
early returns that wait for asynchronous query completion are
collapsed: a round is processed once its queries are done. -/
structure CreatorRound where
  selectNeeded : Bool
  copyNeeded : Bool
  outcome : CopyOutcome
deriving DecidableEq, Repr

/-- The creator's state: the table name (d->n is table + "_creator"),
the savepoint flag d->sp, the d->done flag, the statements enqueued
into the enclosing Transaction, and the Transaction's Failed state.
The Transaction class is not among the given sources; its Failed
state is modelled from the spec: a failing statement poisons the
transaction, except that a race lost under the savepoint - a COPY
failure answered by ROLLBACK TO SAVEPOINT - leaves it non-failed
(spec: savepoints isolate optional races). -/
structure CreatorState where
  table : String
  sp : Bool
  done : Bool
  enqueued : List String
  txFailed : Bool
deriving DecidableEq, Repr

/-- A fresh creator for the given table inside a healthy transaction
(HelperRowCreator's constructor). -/
def CreatorState.start (table : String) : CreatorState :=
  { table := table, sp := false, done := false, enqueued := [], txFailed := false }

/-- One iteration of the while loop in HelperRowCreator::execute
(lines 73-125): a null makeSelect() ends the creator; otherwise the
SELECT runs, and a null makeCopy() ends the creator; otherwise a
savepoint is issued if none is active, the COPY runs, and its outcome
is handled: success falls through to the next select, a failure
matching the constraint enqueues ROLLBACK TO SAVEPOINT and loops back
to the select, any other failure ends the creator with the
transaction poisoned (and d->sp cleared, line 122). -/
def stepRound (st : CreatorState) (r : CreatorRound) : CreatorState :=
  if st.done then st
  else if !r.selectNeeded then { st with done := true }
  else
    let st1 := { st with enqueued := st.enqueued ++ ["select " ++ st.table] }
    if !r.copyNeeded then { st1 with done := true }
    else
      let st2 :=
        if !st1.sp then
          { st1 with
            sp := true
            enqueued := st1.enqueued ++ ["savepoint " ++ st1.table ++ "_creator"] }
        else st1
      let st3 := { st2 with enqueued := st2.enqueued ++ ["copy " ++ st2.table] }
      match r.outcome with
      | .success => st3
      | .failConstraint =>
          { st3 with enqueued := st3.enqueued ++
              ["rollback to savepoint " ++ st3.table ++ "_creator"] }
      | .failOther => { st3 with done := true, sp := false, txFailed := true }

/-- Runs the creator through a finite sequence of rounds. -/
def runRounds (st : CreatorState) (rs : List CreatorRound) : CreatorState :=
  rs.foldl stepRound st

/-- The epilogue after the loop exits with d->done (lines 127-133):
with an active savepoint, RELEASE SAVEPOINT and NOTIFY are enqueued. -/
def creatorEpilogue (st : CreatorState) : CreatorState :=
  if st.sp then
    { st with enqueued := st.enqueued ++
        ["release savepoint " ++ st.table ++ "_creator",
         "notify " ++ st.table ++ "_extended"] }
  else st

/-! ## The undelete command (src/aox/undelete.cpp) -/

/-- One row of the mailboxes table, with the columns undelete reads
and writes. -/
structure MailboxRow where
  id : Nat
  uidnext : Nat
  nextmodseq : Nat
  deletedFlag : Bool
deriving DecidableEq, Repr

/-- One row of mailbox_messages. -/
structure MMRow where
  mailbox : Nat
  uid : Nat
  message : Nat
  modseq : Nat
deriving DecidableEq, Repr

/-- One row of deleted_messages (deleted_by, deleted_at and reason are
carried opaquely: undelete only copies message ids out of them). -/
structure DMRow where
  mailbox : Nat
  uid : Nat
  message : Nat
deriving DecidableEq, Repr

/-- The slice of the database undelete touches. -/
structure Db where
  mailboxes : List MailboxRow
  mailboxMessages : List MMRow
  deletedMessages : List DMRow
deriving DecidableEq, Repr

/-- The DML of Undelete::execute state 3 applied to the database, with
mid the mailbox id, s the uid set the search returned, uidnext0 and
modseq the values read under SELECT ... FOR UPDATE: insert into
mailbox_messages one row per matching deleted_messages row with uids
nextval('s') = uidnext0, uidnext0+1, ... and modseq; delete those rows
from deleted_messages; update the mailbox row to uidnext = the next
sequence value and nextmodseq = modseq+1. -/
def undeleteApply (db : Db) (mid : Nat) (s : List Nat)
    (uidnext0 modseq : Nat) : Db :=
  let found := db.deletedMessages.filter
    (fun r => r.mailbox == mid && s.contains r.uid)
  let newRows := (List.range found.length).zipWith
    (fun k r => MMRow.mk mid (uidnext0 + k) r.message modseq) found
  { mailboxes := db.mailboxes.map (fun r =>
      if r.id == mid then
        { r with uidnext := uidnext0 + found.length,
                 nextmodseq := modseq + 1 }
      else r),
    mailboxMessages := db.mailboxMessages ++ newRows,
    deletedMessages := db.deletedMessages.filter
      (fun r => !(r.mailbox == mid && s.contains r.uid)) }

/-- Undelete::execute from the point where the mailbox is known: reads
uidnext and nextmodseq from the mailbox row under FOR UPDATE, runs the
search (whose resulting uid set is the parameter s - the selector
machinery is outside this embedding and the result holds for every
uid set it could produce), errors out if nothing matched (the process
exits; nothing was committed), then enqueues the DML and finally
rolls the transaction back when the -n option was given and commits
it otherwise.  Returns the database as visible after the command and
whether the transaction committed. -/
def undeleteRun (db : Db) (mid : Nat) (s : List Nat) (dryRun : Bool) :
    Db × Bool :=
  match db.mailboxes.find? (fun r => r.id == mid) with
  | none => (db, false)
  | some row =>
      let found := db.deletedMessages.filter
        (fun r => r.mailbox == mid && s.contains r.uid)
      if found.isEmpty then (db, false)
      else
        let staged := undeleteApply db mid s row.uidnext row.nextmodseq
        if dryRun then (db, false) else (staged, true)

/-! ## Fetcher batch sizing (src/message/fetcher.cpp) -/

/-- The batch-size adjustment of Fetcher::prepareBatch (lines 511-539)
for a batch after the first (d->lastBatchStarted nonzero): prev is the
previous batch size, now and last are the clock readings, maxB is
d->maxBatchSize.  Zero elapsed time doubles the size, negative
elapsed time (now earlier than last) resets to 128, positive elapsed
time e targets 30 seconds via prev*30/e; the result is then capped at
prev*3, capped at prev+2000, raised to at least 128 and capped at
maxB, in that order. -/
def prepareBatchSize (prev now last maxB : Nat) : Nat :=
  let b1 :=
    if now = last then prev * 2
    else if now < last then 128
    else prev * 30 / (now - last)
  let b2 := if b1 > prev * 3 then prev * 3 else b1
  let b3 := if b2 > prev + 2000 then prev + 2000 else b2
  let b4 := if b3 < 128 then 128 else b3
  if b4 > maxB then maxB else b4

/-- The tail-absorption step (lines 544-545): when the remaining
message count is at most batchSize*5/4 the whole queue becomes the
batch. -/
def absorbTail (remaining batchSize : Nat) : Nat :=
  if remaining ≤ batchSize * 5 / 4 then remaining else batchSize

/-! ## Message parsing and assembly (src/message/bodypart.cpp)

The byte-level MIME pipeline behind the parse - asText - parse
round-trip.  Bodypart::parseBodypart, Bodypart::parseMultiPart,
Bodypart::asText and Header::asText / Header::simplify are embedded
from the sources; the collaborators that are not among the given
sources - Message::parseHeader and the Message constructor
(message.cpp), Multipart::appendMultipart (multipart.cpp), the codec
registry (codec.cpp and the encodings), and the String
encode/decode/e64/needsQP primitives (string.cpp) - are modelled from
the spec, as marked on each definition.  A message is a list of
characters with code points below 256, read through byteAt, which
returns NUL past either end exactly as the source's String::operator[]
does.  The byte/line counters (numBytes, numEncodedBytes,
numEncodedLines) are not modelled: no claim mentions them.  Loops and
recursion are driven by an explicit fuel parameter; every loop in the
source advances its index, so any fuel beyond the message length plus
the recursion depth is never exhausted on the inputs considered. -/

/-- A message or body region: a list of byte-sized characters. -/
abbrev Bytes := List Char

/-- Carriage return. -/
def cr : Char := Char.ofNat 13

/-- Line feed. -/
def lf : Char := Char.ofNat 10

/-- String::operator[]: the byte at an index, NUL when out of range. -/
def byteAt (s : Bytes) (i : Nat) : Char :=
  s.getD i (Char.ofNat 0)

/-- String::mid(pos, len): up to len bytes starting at pos. -/
def smid (s : Bytes) (pos len : Nat) : Bytes :=
  (s.drop pos).take len

/-- The region of s from i up to (excluding) j. -/
def slice (s : Bytes) (i j : Nat) : Bytes :=
  (s.drop i).take (j - i)

/-- Space or horizontal tab. -/
def isWsp (c : Char) : Bool :=
  c = ' ' || c = Char.ofNat 9

/-- Strips leading and trailing spaces and tabs. -/
def trimWs (l : Bytes) : Bytes :=
  (l.dropWhile isWsp).reverse.dropWhile isWsp |>.reverse

/-- Splits a byte list on a separator character. -/
def splitOnChar (sep : Char) : Bytes → List Bytes
  | [] => [[]]
  | c :: rest =>
      if c = sep then [] :: splitOnChar sep rest
      else
        match splitOnChar sep rest with
        | [] => [[c]]
        | p :: ps => (c :: p) :: ps

/-- ASCII lowercasing of a byte list. -/
def lowerB (l : Bytes) : Bytes :=
  l.map asciiLowerChar

/-- ASCII lowercasing of a string. -/
def lowerS (s : String) : String :=
  asciiLower s

/-- Splits at the first occurrence of a character: (before, after), or
none when the character is absent. -/
def splitAtFirst (sep : Char) (l : Bytes) : Option (Bytes × Bytes) :=
  match l.span (fun c => !(c = sep)) with
  | (_, []) => none
  | (pre, _ :: rest) => some (pre, rest)

/-! ### Codec layer, modelled from the spec (codec.cpp and the
encoding implementations are not among the given sources). -/

/-- Modelled from the spec: the codecs the embedded inputs can name -
us-ascii and utf-8.  Codecs convert between octets and Unicode and
track validity. -/
inductive CodecK where
  | ascii
  | utf8
deriving DecidableEq, Repr

/-- Codec::name. -/
def codecName : CodecK → String
  | .ascii => "us-ascii"
  | .utf8 => "utf-8"

/-- Modelled from the spec: Codec::byName maps a charset label, after
trimming and case folding, to an implementation, and unknown or empty
labels to none. -/
def codecByName (s : String) : Option CodecK :=
  let n := lowerB (trimWs s.data)
  if n = "us-ascii".data then some .ascii
  else if n = "utf-8".data || n = "utf8".data then some .utf8
  else none

/-- UTF-8 encoding of one code point. -/
def utf8EncodeChar (n : Nat) : Bytes :=
  if n < 0x80 then [Char.ofNat n]
  else if n < 0x800 then
    [Char.ofNat (0xC0 + n / 64), Char.ofNat (0x80 + n % 64)]
  else if n < 0x10000 then
    [Char.ofNat (0xE0 + n / 4096), Char.ofNat (0x80 + (n / 64) % 64),
     Char.ofNat (0x80 + n % 64)]
  else
    [Char.ofNat (0xF0 + n / 262144), Char.ofNat (0x80 + (n / 4096) % 64),
     Char.ofNat (0x80 + (n / 64) % 64), Char.ofNat (0x80 + n % 64)]

/-- UTF-8 encoding of a Unicode string. -/
def utf8Encode (u : List Char) : Bytes :=
  (u.map (fun c => utf8EncodeChar c.toNat)).foldr (· ++ ·) []

/-- Whether a byte is a UTF-8 continuation byte. -/
def isCont (c : Char) : Bool :=
  0x80 ≤ c.toNat && c.toNat < 0xC0

/-- UTF-8 decoding over the basic multilingual plane, with a validity
flag; malformed input yields the replacement character and clears
validity. -/
def utf8Decode : Bytes → List Char × Bool
  | [] => ([], true)
  | [c] =>
      if c.toNat < 0x80 then ([c], true) else ([Char.ofNat 0xFFFD], false)
  | [c, c1] =>
      let n := c.toNat
      if n < 0x80 then
        let (u, ok) := utf8Decode [c1]
        (c :: u, ok)
      else if 0xC0 ≤ n ∧ n < 0xE0 ∧ isCont c1 = true then
        ([Char.ofNat ((n - 0xC0) * 64 + (c1.toNat - 0x80))], true)
      else
        let (u, _) := utf8Decode [c1]
        (Char.ofNat 0xFFFD :: u, false)
  | c :: c1 :: c2 :: rest =>
      let n := c.toNat
      if n < 0x80 then
        let (u, ok) := utf8Decode (c1 :: c2 :: rest)
        (c :: u, ok)
      else if 0xC0 ≤ n ∧ n < 0xE0 then
        if isCont c1 then
          let (u, ok) := utf8Decode (c2 :: rest)
          (Char.ofNat ((n - 0xC0) * 64 + (c1.toNat - 0x80)) :: u, ok)
        else
          let (u, _) := utf8Decode (c1 :: c2 :: rest)
          (Char.ofNat 0xFFFD :: u, false)
      else if 0xE0 ≤ n ∧ n < 0xF0 then
        if isCont c1 && isCont c2 then
          let (u, ok) := utf8Decode rest
          (Char.ofNat ((n - 0xE0) * 4096 + (c1.toNat - 0x80) * 64 +
            (c2.toNat - 0x80)) :: u, ok)
        else
          let (u, _) := utf8Decode (c1 :: c2 :: rest)
          (Char.ofNat 0xFFFD :: u, false)
      else
        let (u, _) := utf8Decode (c1 :: c2 :: rest)
        (Char.ofNat 0xFFFD :: u, false)

/-- Modelled from the spec: Codec::toUnicode with its validity flag.
The ascii codec passes bytes through and is valid only on 7-bit
input. -/
def codecToUnicode : CodecK → Bytes → List Char × Bool
  | .ascii, b => (b, b.all (fun c => c.toNat < 128))
  | .utf8, b => utf8Decode b

/-- Modelled from the spec: Codec::fromUnicode.  The ascii codec
replaces unrepresentable characters with a question mark. -/
def codecFromUnicode : CodecK → List Char → Bytes
  | .ascii, u => u.map (fun c => if c.toNat < 128 then c else '?')
  | .utf8, u => utf8Encode u

/-- Modelled from the spec: Codec::byString chooses the cheapest codec
that encodes the string without loss - us-ascii for 7-bit text, else
utf-8. -/
def codecByString (u : List Char) : CodecK :=
  if u.all (fun c => c.toNat < 128) then .ascii else .utf8

/-! ### Content-transfer encodings, modelled from the spec
(string.cpp is not among the given sources). -/

/-- String::Encoding, restricted to the encodings the embedded header
parser produces. -/
inductive TEnc where
  | Binary
  | QP
  | Base64
deriving DecidableEq, Repr

/-- The value of a hexadecimal digit (byte codes: 48-57 are digits,
65-70 upper-case A-F, 97-102 lower-case a-f). -/
def hexVal (c : Char) : Option Nat :=
  let n := c.toNat
  if 48 ≤ n ∧ n ≤ 57 then some (n - 48)
  else if 65 ≤ n ∧ n ≤ 70 then some (n - 55)
  else if 97 ≤ n ∧ n ≤ 102 then some (n - 87)
  else none

/-- Modelled from the spec: quoted-printable decoding per RFC 2045 -
an equals sign followed by two hex digits is a byte, an equals sign
followed by CRLF is a soft line break, everything else passes
through. -/
def qpDecode : Bytes → Bytes
  | [] => []
  | c :: c1 :: c2 :: rest =>
      if c = '=' then
        if c1 = cr ∧ c2 = lf then qpDecode rest
        else
          match hexVal c1, hexVal c2 with
          | some a, some b => Char.ofNat (16 * a + b) :: qpDecode rest
          | _, _ => c :: qpDecode (c1 :: c2 :: rest)
      else c :: qpDecode (c1 :: c2 :: rest)
  | c :: rest => c :: qpDecode rest

/-- The value of a base64 alphabet character. -/
def b64Val (c : Char) : Option Nat :=
  if 'A' ≤ c ∧ c ≤ 'Z' then some (c.toNat - 'A'.toNat)
  else if 'a' ≤ c ∧ c ≤ 'z' then some (c.toNat - 'a'.toNat + 26)
  else if '0' ≤ c ∧ c ≤ '9' then some (c.toNat - '0'.toNat + 52)
  else if c = '+' then some 62
  else if c = '/' then some 63
  else none

/-- Decodes a stream of base64 sextets into bytes. -/
def b64DecodeCore : List Nat → Bytes
  | a :: b :: c :: d :: rest =>
      Char.ofNat (a * 4 + b / 16) ::
      Char.ofNat ((b % 16) * 16 + c / 4) ::
      Char.ofNat ((c % 4) * 64 + d) :: b64DecodeCore rest
  | [a, b] => [Char.ofNat (a * 4 + b / 16)]
  | [a, b, c] =>
      [Char.ofNat (a * 4 + b / 16), Char.ofNat ((b % 16) * 16 + c / 4)]
  | _ => []

/-- Modelled from the spec: base64 decoding per RFC 2045, ignoring
characters outside the alphabet. -/
def b64Decode (s : Bytes) : Bytes :=
  b64DecodeCore (s.filterMap b64Val)

/-- The base64 alphabet character for a sextet. -/
def b64Char (n : Nat) : Char :=
  byteAt "ABCDEFGHIJKLMNOPQRSTUVWXYZabcdefghijklmnopqrstuvwxyz0123456789+/".data n

/-- Encodes bytes into base64 characters, with padding. -/
def b64EncodeCore : Bytes → List Char
  | a :: b :: c :: rest =>
      b64Char (a.toNat / 4) :: b64Char ((a.toNat % 4) * 16 + b.toNat / 16) ::
      b64Char ((b.toNat % 16) * 4 + c.toNat / 64) :: b64Char (c.toNat % 64) ::
      b64EncodeCore rest
  | [a, b] =>
      [b64Char (a.toNat / 4), b64Char ((a.toNat % 4) * 16 + b.toNat / 16),
       b64Char ((b.toNat % 16) * 4), '=']
  | [a] =>
      [b64Char (a.toNat / 4), b64Char ((a.toNat % 4) * 16), '=', '=']
  | [] => []

/-- Splits a list into chunks of a given size (fuel-driven so the
kernel can evaluate it; the fuel bounds the chunk count). -/
def chunksF : Nat → Nat → List Char → List (List Char)
  | 0, _, _ => []
  | fuel + 1, n, l =>
      if l = [] ∨ n = 0 then []
      else l.take n :: chunksF fuel n (l.drop n)

/-- Splits a list into chunks of a given size. -/
def chunks (n : Nat) (l : List Char) : List (List Char) :=
  chunksF (l.length + 1) n l

/-- Modelled from the spec: String::e64, base64 with lines wrapped at
the given width, each line ending in CRLF. -/
def e64 (s : Bytes) (width : Nat) : Bytes :=
  ((chunks width (b64EncodeCore s)).map (fun l => l ++ [cr, lf])).foldr
    (· ++ ·) []

/-- Modelled from the spec: String::needsQP - the round-tripped text
requires quoted-printable when it contains 8-bit or NUL bytes. -/
def needsQP (s : Bytes) : Bool :=
  s.any (fun c => c.toNat ≥ 128 || c.toNat = 0)

/-- String::decode for the modelled encodings. -/
def decodeTE : TEnc → Bytes → Bytes
  | .Binary, s => s
  | .QP, s => qpDecode s
  | .Base64, s => b64Decode s

/-! ### Raw header fields and MIME field values.  For the byte-level
pipeline a header is its ordered list of raw name/value fields; the
structured views (Content-Type, Content-Transfer-Encoding) are parsed
from the raw value on demand, and edits rewrite the raw value, which
is what serializing a parsed field amounts to.  The field parsers
(mimefields.cpp is not among the given sources) are modelled from the
spec at the level the pipeline consumes. -/

/-- One raw header field. -/
structure RawField where
  name : String
  value : String
deriving DecidableEq, Repr

/-- Header::DefaultType. -/
inductive DefType where
  | TextPlain
  | MessageRfc822
deriving DecidableEq, Repr

/-- A header as the byte-level pipeline sees it: mode, default type
and the ordered raw fields. -/
structure RHeader where
  mode : HeaderMode
  defaultType : DefType
  rfields : List RawField
deriving DecidableEq, Repr

/-- The first field with the given name, compared case-insensitively. -/
def RHeader.field? (h : RHeader) (nm : String) : Option RawField :=
  h.rfields.find? (fun f => lowerS f.name == lowerS nm)

/-- Header::add(name, value) for non-address fields: appends. -/
def RHeader.addField (h : RHeader) (nm v : String) : RHeader :=
  { h with rfields := h.rfields ++ [⟨nm, v⟩] }

/-- Header::removeField: removes every field with the name. -/
def RHeader.removeField (h : RHeader) (nm : String) : RHeader :=
  { h with
    rfields := h.rfields.filter (fun f => !(lowerS f.name == lowerS nm)) }

/-- Rewrites the value of the first field with the given name. -/
def RHeader.setField (h : RHeader) (nm v : String) : RHeader :=
  { h with rfields := setFirstValue h.rfields nm v }
where
  setFirstValue : List RawField → String → String → List RawField
    | [], _, _ => []
    | f :: rest, nm, v =>
        if lowerS f.name == lowerS nm then { f with value := v } :: rest
        else f :: setFirstValue rest nm v

/-- A parsed Content-Type: lowercased type and subtype plus the
parameter list. -/
structure CT2 where
  ctype : String
  subtype : String
  params : List (String × String)
deriving DecidableEq, Repr

/-- The value of a Content-Type parameter, empty when absent. -/
def CT2.param (ct : CT2) (nm : String) : String :=
  ((ct.params.find? (fun p => p.1 == nm)).map (fun p => p.2)).getD ""

/-- Strips one level of surrounding double quotes. -/
def unquote (l : Bytes) : Bytes :=
  match l with
  | '"' :: rest =>
      match rest.reverse with
      | '"' :: mid => mid.reverse
      | _ => l
  | _ => l

/-- Modelled from the spec: parsing one name=value Content-Type
parameter; the name is trimmed and lowercased, the value trimmed and
unquoted. -/
def parseParam (seg : Bytes) : Option (String × String) :=
  match splitAtFirst '=' seg with
  | none => none
  | some (nm, v) =>
      let nm := lowerB (trimWs nm)
      if nm = [] then none
      else some (⟨nm⟩, ⟨unquote (trimWs v)⟩)

/-- Modelled from the spec: parsing a Content-Type value into
type/subtype (lowercased) and parameters. -/
def parseCT (v : String) : CT2 :=
  match splitOnChar ';' v.data with
  | [] => ⟨"", "", []⟩
  | main :: segs =>
      let m := trimWs main
      let (t, sub) :=
        match splitAtFirst '/' m with
        | some (t, sub) => (t, sub)
        | none => (m, [])
      { ctype := ⟨lowerB (trimWs t)⟩, subtype := ⟨lowerB (trimWs sub)⟩,
        params := segs.filterMap parseParam }

/-- Serializes a parsed Content-Type back into a field value, the way
a parsed MIME field reassembles itself. -/
def assembleCT (ct : CT2) : String :=
  ct.params.foldl (fun acc p => acc ++ "; " ++ p.1 ++ "=" ++ p.2)
    (ct.ctype ++ "/" ++ ct.subtype)

/-- The header's Content-Type, parsed, if the field is present. -/
def RHeader.contentType? (h : RHeader) : Option CT2 :=
  (h.field? "Content-Type").map (fun f => parseCT f.value)

/-- Rewrites the first Content-Type field through a function on its
parsed form (the source mutates the ContentType object in place). -/
def RHeader.updateCT (h : RHeader) (f : CT2 → CT2) : RHeader :=
  match h.field? "Content-Type" with
  | none => h
  | some fld => h.setField "Content-Type" (assembleCT (f (parseCT fld.value)))

/-- Modelled from the spec: parsing a Content-Transfer-Encoding value;
quoted-printable and base64 are recognized, everything else (7bit,
8bit, binary) is the identity encoding. -/
def parseEnc (v : String) : TEnc :=
  let n := lowerB (trimWs v.data)
  if n = "quoted-printable".data then .QP
  else if n = "base64".data then .Base64
  else .Binary

/-- The header's Content-Transfer-Encoding, parsed, if present. -/
def RHeader.cte? (h : RHeader) : Option TEnc :=
  (h.field? "Content-Transfer-Encoding").map (fun f => parseEnc f.value)

/-- Worker for findLineEnd; the fuel bounds the scan. -/
def findLineEndF : Nat → Bytes → Nat → Nat → Nat
  | 0, s, _, stop => min stop s.length
  | fuel + 1, s, i, stop =>
      if i < stop ∧ i < s.length then
        if byteAt s i = cr ∨ byteAt s i = lf then i
        else findLineEndF fuel s (i + 1) stop
      else min stop s.length

/-- Finds the first index at or after i whose byte is CR or LF (or
stop). -/
def findLineEnd (s : Bytes) (i stop : Nat) : Nat :=
  findLineEndF (s.length + 1) s i stop

/-- Skips one CR and one LF at the index, as the source does after a
line. -/
def skipCrlf (s : Bytes) (i : Nat) : Nat :=
  let i := if byteAt s i = cr then i + 1 else i
  if byteAt s i = lf then i + 1 else i

/-- Modelled from the spec: Message::parseHeader (message.cpp is not
among the given sources) reads Name: value lines from the index up to
the limit, unfolding continuation lines that begin with whitespace,
and stops at the first empty or non-field line, returning the fields
and the index of what stopped it (the blank line's CRLF is left for
the body parser to skip). -/
def parseHeaderAt (fuel : Nat) (s : Bytes) (i stop : Nat) :
    List RawField × Nat :=
  match fuel with
  | 0 => ([], i)
  | fuel + 1 =>
      if i ≥ stop then ([], i)
      else if byteAt s i = cr ∨ byteAt s i = lf then ([], i)
      else
        let lineEnd := findLineEnd s i stop
        let line := slice s i lineEnd
        match splitAtFirst ':' line with
        | none => ([], i)
        | some (nm, v) =>
            let (vrest, next) := contLines fuel s (skipCrlf s lineEnd) stop
            let fld : RawField :=
              ⟨⟨trimWs nm⟩, ⟨trimWs v ++ vrest⟩⟩
            let (rest, fin) := parseHeaderAt fuel s next stop
            (fld :: rest, fin)
where
  /-- Absorbs folded continuation lines: each line beginning with
  space or tab extends the previous field's value. -/
  contLines (fuel : Nat) (s : Bytes) (i stop : Nat) : Bytes × Nat :=
    match fuel with
    | 0 => ([], i)
    | fuel + 1 =>
        if i < stop ∧ isWsp (byteAt s i) then
          let lineEnd := findLineEnd s i stop
          let line := trimWs (slice s i lineEnd)
          let (more, next) := contLines fuel s (skipCrlf s lineEnd) stop
          (' ' :: (line ++ more), next)
        else ([], i)

/-- A parsed body part: its header, whether it has decoded text, the
decoded text, the raw decoded data (for non-text parts) and the child
parts.  This is BodypartData restricted to what the claims compare;
the size and line counters are not modelled. -/
inductive BP where
  | node (hdr : RHeader) (hasText : Bool) (text : List Char)
      (data : Bytes) (children : List BP)
deriving Repr

/-- The part's header. -/
def BP.hdr : BP → RHeader
  | .node h _ _ _ _ => h

/-- Whether the part holds decoded text. -/
def BP.hasText : BP → Bool
  | .node _ t _ _ _ => t

/-- The part's decoded Unicode text. -/
def BP.text : BP → List Char
  | .node _ _ t _ _ => t

/-- The part's content-transfer-decoded octets. -/
def BP.data : BP → Bytes
  | .node _ _ _ d _ => d

/-- The part's children. -/
def BP.children : BP → List BP
  | .node _ _ _ _ c => c

/-! ### Header::simplify (header.cpp lines 480-556) over raw fields.
The address-level operations (sameAddresses, Header::addresses) are
modelled from the spec at the addr-spec level: an address field's
value is a comma-separated list whose entries are compared by exact
localpart and case-insensitive domain. -/

/-- Modelled from the spec: the address list of a field value, each
entry read as localpart@domain with the domain lowercased. -/
def addrListOf (v : String) : List (String × String) :=
  (splitOnChar ',' v.data).filterMap (fun seg =>
    let t := trimWs seg
    if t = [] then none
    else
      match splitAtFirst '@' t.reverse with
      | some (domR, lpR) => some (⟨lpR.reverse⟩, ⟨lowerB domR.reverse⟩)
      | none => some (⟨t⟩, ""))

/-- The sameAddresses check from header.cpp (lines 446-472): both
fields present, same address count, and every address of one occurs
in the other (exact localpart, case-insensitive domain). -/
def sameAddrs (a b : Option RawField) : Bool :=
  match a, b with
  | some fa, some fb =>
      let l := addrListOf fa.value
      let m := addrListOf fb.value
      l.length == m.length && m.all (fun x => l.contains x)
  | _, _ => false

/-- Header::addresses(t) is null iff the field is absent or its
address list is empty; simplify removes such fields. -/
def dropIfNoAddrs (h : RHeader) (nm : String) : RHeader :=
  match h.field? nm with
  | none => h
  | some f => if addrListOf f.value = [] then h.removeField nm else h

/-- Whether a Content-Disposition value is a bare inline with no
parameters, the form simplify removes on text in Rfc2822 mode. -/
def isBareInline (v : String) : Bool :=
  match splitOnChar ';' v.data with
  | main :: segs =>
      (lowerB (trimWs main) == "inline".data) &&
        (segs.filterMap parseParam).isEmpty
  | [] => false

/-- The intermediate state of simplify: the header plus the pointer
flags the source carries across the function. -/
structure SimpState where
  h : RHeader
  cdePresent : Bool
  cteStale : Bool
  cdiPresent : Bool
  ctRemove : Bool
deriving Repr

/-- Simplify step 1 (header.cpp 482-490): empty Content-Description
removed; Binary Content-Transfer-Encoding removed, with the stale cte
pointer flag captured first. -/
def simpStep1 (h0 : RHeader) : SimpState :=
  let cde0 := h0.field? "Content-Description"
  let h1 := if (cde0.map (fun f => f.value)).getD "x" = "" then
      h0.removeField "Content-Description" else h0
  let cdePresent := (h1.field? "Content-Description").isSome
  let cteStale := (h1.field? "Content-Transfer-Encoding").isSome
  let h2 := match h1.cte? with
    | some .Binary => h1.removeField "Content-Transfer-Encoding"
    | _ => h1
  ⟨h2, cdePresent, cteStale, false, false⟩

/-- Simplify step 2 (header.cpp 492-517): default inline
Content-Disposition on text in Rfc2822 mode removed; a bare text/plain
Content-Type removed when no other MIME field remains, else a missing
Content-Type materialized for message/rfc822 defaults. -/
def simpStep2 (st : SimpState) : SimpState :=
  let cdi0 := st.h.field? "Content-Disposition"
  let ct0 := st.h.contentType?
  let cdiRemove : Bool :=
    match cdi0 with
    | some f =>
        (st.h.mode == .Rfc2822) &&
        (ct0.isNone || ((ct0.map (fun ct => ct.ctype)).getD "" == "text")) &&
        isBareInline f.value
    | none => false
  let h1 := if cdiRemove then st.h.removeField "Content-Disposition" else st.h
  let cdiPresent := (h1.field? "Content-Disposition").isSome
  let ctRemove : Bool :=
    match h1.contentType? with
    | some ct =>
        ct.params.isEmpty && !st.cteStale && !cdiPresent &&
        !st.cdePresent && (h1.defaultType == .TextPlain) &&
        (ct.ctype == "text") && (ct.subtype == "plain")
    | none => false
  let h2 := if ctRemove then h1.removeField "Content-Type" else h1
  let h3 :=
    if (h2.contentType?).isNone && !ctRemove &&
       (h2.defaultType == .MessageRfc822) then
      h2.addField "Content-Type" "message/rfc822"
    else h2
  ⟨h3, st.cdePresent, st.cteStale, cdiPresent, ctRemove⟩

/-- Simplify step 3 (header.cpp 519-534): Mime-Version dropped in Mime
mode or when no MIME field remains, added in Rfc2822 mode otherwise;
an empty Message-Id removed. -/
def simpStep3 (st : SimpState) : RHeader :=
  let ctPresent := (st.h.field? "Content-Type").isSome
  let h1 :=
    if st.h.mode == .Mime then st.h.removeField "Mime-Version"
    else if !ctPresent && !st.cteStale && !st.cdePresent &&
        !st.cdiPresent && (st.h.field? "Content-Location").isNone &&
        (st.h.field? "Content-Base").isNone then
      st.h.removeField "Mime-Version"
    else if (st.h.mode == .Rfc2822) &&
        (st.h.field? "Mime-Version").isNone then
      st.h.addField "Mime-Version" "1.0"
    else st.h
  match h1.field? "Message-Id" with
  | some f => if f.value = "" then h1.removeField "Message-Id" else h1
  | none => h1

/-- Simplify step 4 (header.cpp 536-555): Reply-To and Sender equal to
From removed; address fields with no addresses removed. -/
def simpStep4 (h0 : RHeader) : RHeader :=
  let h1 := if sameAddrs (h0.field? "From") (h0.field? "Reply-To") then
      h0.removeField "Reply-To" else h0
  let h2 := if sameAddrs (h1.field? "From") (h1.field? "Sender") then
      h1.removeField "Sender" else h1
  let h3 := dropIfNoAddrs h2 "Sender"
  let h4 := dropIfNoAddrs h3 "Return-Path"
  let h5 := dropIfNoAddrs h4 "To"
  let h6 := dropIfNoAddrs h5 "Cc"
  let h7 := dropIfNoAddrs h6 "Bcc"
  dropIfNoAddrs h7 "Reply-To"

/-- Header::simplify (header.cpp 480-556) over raw fields.  Note one
quirk of the source kept intact: the cte pointer is fetched before the
Binary case removes the field and is not nulled, so the Content-Type
removal and Mime-Version conditions see the field as present even when
the Binary encoding was just dropped. -/
def simplifyH (h : RHeader) : RHeader :=
  simpStep4 (simpStep3 (simpStep2 (simpStep1 h)))

/-! ### The body-part parser (bodypart.cpp 253-454) and assembly. -/

/-- Worker for skipWs; the fuel bounds the scan. -/
def skipWsF : Nat → Bytes → Nat → Nat
  | 0, _, j => j
  | fuel + 1, s, j =>
      if j < s.length ∧ isWsp (byteAt s j) then skipWsF fuel s (j + 1) else j

/-- The whitespace skip at bodypart.cpp line 288 (the source relies on
operator[] returning NUL past the end to stop). -/
def skipWs (s : Bytes) (j : Nat) : Nat :=
  skipWsF (s.length + 1) s j

/-- Worker for skipNonBreak; the fuel bounds the scan. -/
def skipNonBreakF : Nat → Bytes → Nat → Nat → Nat
  | 0, _, i, _ => i
  | fuel + 1, s, i, stop =>
      if i < stop ∧ ¬(byteAt s i = cr ∨ byteAt s i = lf) then
        skipNonBreakF fuel s (i + 1) stop
      else i

/-- The line skip at bodypart.cpp line 326: advance while below the
limit and not at CR or LF. -/
def skipNonBreak (s : Bytes) (i stop : Nat) : Nat :=
  skipNonBreakF (stop + 1) s i stop

/-- Worker for skipBreaks; the fuel bounds the scan. -/
def skipBreaksF : Nat → Bytes → Nat → Nat → Nat
  | 0, _, i, _ => i
  | fuel + 1, s, i, stop =>
      if i < stop ∧ (byteAt s i = cr ∨ byteAt s i = lf) then
        skipBreaksF fuel s (i + 1) stop
      else i

/-- The break skip at bodypart.cpp line 328: advance over CR and LF
bytes below the limit. -/
def skipBreaks (s : Bytes) (i stop : Nat) : Nat :=
  skipBreaksF (stop + 1) s i stop

/-- MimeField::removeParameter over the parsed Content-Type. -/
def ctRemoveParam (nm : String) (ctv : CT2) : CT2 :=
  { ctv with params := ctv.params.filter (fun p => !(p.1 == nm)) }

/-- MimeField::addParameter over the parsed Content-Type. -/
def ctAddParam (nm v : String) (ctv : CT2) : CT2 :=
  { ctv with params := ctv.params ++ [(nm, v)] }

/-- One pending call of the mutually recursive parsing routines: a
body-part parse, one multipart-loop iteration, or a whole-message
parse.  The three routines recurse only through the fuel, so they are
combined into the single fuel-indexed dispatcher parseStep below -
plain structural recursion the kernel can evaluate; the per-call
bodies are the direct translations of the source. -/
inductive PCall where
  | body (start stop : Nat) (s : Bytes) (h : RHeader) (err : String)
  | multi (i start stop : Nat) (s : Bytes) (divider : Bytes)
      (digest : Bool) (acc : List BP) (err : String) (last : Bool)
  | msg (s : Bytes)

/-- The dispatcher's result: a part (for body and msg calls), the
collected children (for multi calls), and the error string. -/
abbrev PRes := BP × List BP × String

/-- The fuel-indexed dispatcher for the three parsing routines.  The
body case is Bodypart::parseBodypart (bodypart.cpp 340-454): strip one
CRLF at the start, content-transfer-decode the region, then handle
text parts (charset resolution, best-codec rewrite, quoted-printable
adjustment, simplify), other leaf parts (base64 normalization,
simplify), multiparts (boundary split) and message/rfc822 (whole
sub-message parse with its parts spliced under this one; the
subsidiary Message object itself is represented by those spliced
children).  The multi case is one iteration of
Bodypart::parseMultiPart's loop (bodypart.cpp 272-330), with the
mutable locals explicit: i the scan position, start the start of the
current region (0 before the first boundary, so the preamble is never
emitted), acc the children collected so far, last whether the closing
boundary was seen; each iteration tests for a boundary line (two
hyphens after start-of-input or a line break, the divider, optionally
two more hyphens, optional blanks, then CRLF), emits the region
between the previous boundary and this one, and then unconditionally
skips the rest of the current line and the following breaks, exactly
as the source's trailing while loops do.  The msg case is modelled
from the spec: the Message constructor (message.cpp is not among the
given sources) parses the headers at the top in Rfc2822 mode and
parses the remainder as the body, which is parseBodypart with the
message's header. -/
def parseStep : Nat → PCall → PRes
  | 0, .body _ _ _ h err => (BP.node h false [] [] [], [], err)
  | 0, .multi _ _ _ _ _ _ acc err _ =>
      (BP.node ⟨.Mime, .TextPlain, []⟩ false [] [] [], acc, err)
  | 0, .msg _ => (BP.node ⟨.Rfc2822, .TextPlain, []⟩ false [] [] [], [], "")
  | fuel + 1, .body start0 stop s h err =>
      let start1 := if byteAt s start0 = cr then start0 + 1 else start0
      let start := if byteAt s start1 = lf then start1 + 1 else start1
      let ct := h.contentType?
      let e := match h.cte? with
        | some enc => enc
        | none => TEnc.Binary
      let body := if stop > start then decodeTE e (slice s start stop) else []
      if ct.isNone || ((ct.map (fun c => c.ctype)).getD "" == "text") then
        let c0 := match ct with
          | some ctv => codecByName (ctv.param "charset")
          | none => none
        let h1 := if c0.isSome then h.updateCT (ctRemoveParam "charset") else h
        let c := c0.getD .ascii
        let tc := codecToUnicode c body
        let err1 := if !tc.2 && (err == "") then
            "Error converting body from " ++ codecName c ++ " to Unicode"
          else err
        let c2 := if ct.isSome then codecByString tc.1 else c
        let h2 := if ct.isSome && !(lowerS (codecName c2) == "us-ascii") then
            h1.updateCT (ctAddParam "charset" (lowerS (codecName c2)))
          else h1
        let body2 := codecFromUnicode c2 tc.1
        let qp := needsQP body2
        let h3 := match h2.cte? with
          | some enc =>
              if !qp then h2.removeField "Content-Transfer-Encoding"
              else if !(enc == TEnc.QP) then
                h2.setField "Content-Transfer-Encoding" "quoted-printable"
              else h2
          | none =>
              if qp then
                h2.addField "Content-Transfer-Encoding" "quoted-printable"
              else h2
        (BP.node (simplifyH h3) true tc.1 [] [], [], err1)
      else
        let ctv := ct.getD ⟨"", "", []⟩
        let h1 :=
          if !(ctv.ctype == "multipart") && !(ctv.ctype == "message") then
            simplifyH (match h.cte? with
              | some enc =>
                  if !(enc == TEnc.Base64) then
                    h.setField "Content-Transfer-Encoding" "base64"
                  else h
              | none => h.addField "Content-Transfer-Encoding" "base64")
          else h
        if ctv.ctype == "multipart" then
          let cs := parseStep fuel (.multi start 0 stop s
            (ctv.param "boundary").data (ctv.subtype == "digest") [] err false)
          (BP.node h1 false [] body cs.2.1, [], cs.2.2)
        else if (ctv.ctype == "message") && (ctv.subtype == "rfc822") then
          let m := parseStep fuel (.msg (smid s start stop))
          (BP.node h1 false [] body m.1.children, [], err)
        else
          (BP.node h1 false [] body [], [], err)

  | fuel + 1, .multi i start stop s divider digest acc err last =>
      let dummy : BP := BP.node ⟨.Mime, .TextPlain, []⟩ false [] [] []
      if last || i ≥ stop then (dummy, acc, err)
      else
        let isB := decide (i < stop) && (byteAt s i == '-') &&
            (byteAt s (i+1) == '-') &&
            ((i == 0) || (byteAt s (i-1) == cr) || (byteAt s (i-1) == lf)) &&
            (byteAt s (i+2) == byteAt divider 0) &&
            (smid s (i+2) divider.length == divider)
        if isB then
          let j0 := i + 2 + divider.length
          let jl := if (byteAt s j0 == '-') && (byteAt s (j0+1) == '-') then
              (j0 + 2, true)
            else (j0, false)
          let j2 := skipWs s jl.1
          if (byteAt s j2 == cr) || (byteAt s j2 == lf) then
            let j3 := if byteAt s j2 = cr then j2 + 1 else j2
            let j := if byteAt s j3 = lf then j3 + 1 else j3
            let step :=
              if start > 0 then
                let ph := parseHeaderAt (stop + 2) s start j
                let h0 : RHeader := ⟨.Mime, .TextPlain, ph.1⟩
                let h := if (h0.contentType?).isSome then h0
                  else if digest then
                    h0.addField "Content-Type" "message/rfc822"
                  else h0.addField "Content-Type" "text/plain"
                let i2 := if byteAt s (i-1) = lf then
                    (if byteAt s (i-2) = cr then i - 2 else i - 1)
                  else i
                let pb := parseStep fuel (.body ph.2 i2 s h err)
                (acc ++ [pb.1], pb.2.2)
              else (acc, err)
            let i3 := skipBreaks s (skipNonBreak s j stop) stop
            parseStep fuel
              (.multi i3 j stop s divider digest step.1 step.2 jl.2)
          else
            let i3 := skipBreaks s (skipNonBreak s i stop) stop
            parseStep fuel (.multi i3 start stop s divider digest acc err last)
        else
          let i3 := skipBreaks s (skipNonBreak s i stop) stop
          parseStep fuel (.multi i3 start stop s divider digest acc err last)
  | fuel + 1, .msg s =>
      let ph := parseHeaderAt (s.length + 2) s 0 s.length
      parseStep fuel (.body ph.2 s.length s ⟨.Rfc2822, .TextPlain, ph.1⟩ "")

/-- Bodypart::parseBodypart as a function: the body case of the
dispatcher. -/
def parseBodypartF (fuel start stop : Nat) (s : Bytes) (h : RHeader)
    (err : String) : BP × String :=
  let r := parseStep fuel (.body start stop s h err)
  (r.1, r.2.2)

/-- Bodypart::parseMultiPart (bodypart.cpp 264-331): runs the loop
from the region start with no region open. -/
def parseMultiPartF (fuel i stop : Nat) (s : Bytes) (divider : Bytes)
    (digest : Bool) (err : String) : List BP × String :=
  let r := parseStep fuel (.multi i 0 stop s divider digest [] err false)
  (r.2.1, r.2.2)

/-- The Message constructor (modelled from the spec): the msg case of
the dispatcher. -/
def parseMessageF (fuel : Nat) (s : Bytes) : BP × String :=
  let r := parseStep fuel (.msg s)
  (r.1, r.2.2)

/-- Header::asText (header.cpp 808-839): the fields in order, each as
name, colon, space, value, CRLF. -/
def headerAsText (h : RHeader) : Bytes :=
  (h.rfields.map (fun f =>
    f.name.data ++ (": ".data) ++ f.value.data ++ [cr, lf])).foldr
    (· ++ ·) []

/-- Modelled from the spec: Multipart::appendMultipart (multipart.cpp
is not among the given sources) - the boundary from the Content-Type
is emitted before each child, followed by the child's header, a blank
line and the child's body (rendered by the given function), and a
closing boundary with two trailing hyphens ends the multipart. -/
def appendMultipartWith (render : BP → Bytes) (bp : BP) : Bytes :=
  let boundary :=
    (((bp.hdr.contentType?).map (fun ctv => ctv.param "boundary")).getD
      "").data
  ((bp.children.map (fun child =>
      ("--".data) ++ boundary ++ [cr, lf] ++ headerAsText child.hdr ++
      [cr, lf] ++ render child ++ [cr, lf])).foldr
    (· ++ ·) []) ++
  ("--".data) ++ boundary ++ ("--".data) ++ [cr, lf]

/-- Bodypart::asText (bodypart.cpp 229-249): the charset codec is
resolved from the Content-Type; a part with children renders as a
multipart, a text part as the charset-encoded text, any other leaf as
base64 with 72-character lines. -/
def bodypartAsTextF : Nat → BP → Bytes
  | 0, _ => []
  | fuel + 1, bp =>
      let ct := bp.hdr.contentType?
      let c := match ct with
        | some ctv =>
            if !(ctv.param "charset" == "") then
              (codecByName (ctv.param "charset")).getD .ascii
            else .ascii
        | none => .ascii
      if !bp.children.isEmpty then
        appendMultipartWith (bodypartAsTextF fuel) bp
      else if ct.isNone || ((ct.map (fun x => x.ctype)).getD "" == "text") then
        codecFromUnicode c bp.text
      else e64 bp.data 72

/-- Modelled from the spec: Message::rfc822 - the message's header,
a blank line, and its body as text. -/
def messageAsText (fuel : Nat) (bp : BP) : Bytes :=
  headerAsText bp.hdr ++ [cr, lf] ++ bodypartAsTextF fuel bp

/-- The observation the round-trip claim compares: for every node in
preorder, its depth, its child count, its effective Content-Type type
and subtype (text/plain when the header carries none, the parser's
default) and its decoded text (empty for non-text parts). -/
def summarize : Nat → Nat → BP → List (Nat × Nat × String × String × String)
  | 0, _, _ => []
  | fuel + 1, depth, bp =>
      let eff := match bp.hdr.contentType? with
        | some ct => (ct.ctype, ct.subtype)
        | none => ("text", "plain")
      (depth, bp.children.length, eff.1, eff.2,
        (if bp.hasText then (⟨bp.text⟩ : String) else "")) ::
        (bp.children.map (summarize fuel (depth + 1))).foldr (· ++ ·) []

/-- Ample fuel for the message below: every loop advances its index,
so the fuel is never exhausted. -/
def c2Fuel : Nat := 10000

/-- The failing input: a multipart/mixed message whose single
text/plain part is quoted-printable encoded and decodes to a line
that spells the part delimiter of the enclosing multipart. -/
def msgB : Bytes :=
  ("From: a@b.example\r\n" ++
   "Date: Thu, 1 Jan 2009 00:00:00 +0000\r\n" ++
   "Content-Type: multipart/mixed; boundary=xyz\r\n" ++
   "\r\n" ++
   "--xyz\r\n" ++
   "Content-Transfer-Encoding: quoted-printable\r\n" ++
   "\r\n" ++
   "=2D=2Dxyz\r\n" ++
   "--xyz--\r\n").data

/-- The round-trip property the claim asserts for a message: if the
parse accepts it (no error recorded), re-parsing the assembled text
yields a Bodypart tree with the same shape, the same Content-Type
type and subtype at every node and the same decoded text at every
text leaf. -/
def roundTripPreserved (B : Bytes) : Prop :=
  (parseMessageF c2Fuel B).2 = "" →
    summarize c2Fuel 0 (parseMessageF c2Fuel B).1 =
      summarize c2Fuel 0
        (parseMessageF c2Fuel
          (messageAsText c2Fuel (parseMessageF c2Fuel B).1)).1

/-! ## Helper lemmas -/

/-- Every registry operation either leaves uidnext alone (uidValue
none) or installs exactly its uidValue. -/
theorem applyOp_uidnext (m : MailboxState) (op : MailboxOp) :
    (applyOp m op).uidnext = op.uidValue.getD m.uidnext := by
  cases op with
  | setUidnext n =>
      simp only [applyOp, MailboxOp.uidValue, MailboxState.setUidnext]
      split
      · next h => simpa using h.symm
      · rfl
  | readerRow id deletedCol viewNonNull uidvalidity uidnext owner =>
      simp only [applyOp, MailboxOp.uidValue]
      cases owner <;>
        cases deletedCol <;>
          cases viewNonNull <;>
            simp [MailboxState.setOwner, MailboxState.setUidnext,
              MailboxState.setUidvalidity, MailboxState.setType,
              MailboxState.setId] <;>
              split <;> simp_all
  | setType t => rfl
  | setDeleted del => cases del <;> rfl
  | setOwner n => rfl
  | setId i => rfl
  | setUidvalidity i => rfl

/-- A step that passes okStep does not decrease uidnext. -/
theorem okStep_le (m : MailboxState) (op : MailboxOp)
    (h : okStep m.uidnext op = true) : m.uidnext ≤ (applyOp m op).uidnext := by
  have heq := applyOp_uidnext m op
  unfold okStep at h
  cases hop : op.uidValue with
  | none =>
      rw [hop] at heq
      simp only [Option.getD_none] at heq
      omega
  | some n =>
      rw [hop] at heq h
      simp only [Option.getD_some] at heq
      simp only [decide_eq_true_eq] at h
      omega

/-! ## Theorems for the claims -/

/-- C1 counterexample: the claim that uidnext never decreases across
any sequence of registry operations is false.  Mailbox::setUidnext
performs no check; after setUidnext 5 a further setUidnext 3 lowers
uidnext from 5 to 3. -/
theorem uidnext_can_decrease :
    (runOps (MailboxState.init "/x") [.setUidnext 5, .setUidnext 3]).uidnext <
      (runOps (MailboxState.init "/x") [.setUidnext 5]).uidnext := by
  decide

/-- C1 amended: an operation changes uidnext only by installing the
value carried by setUidnext or by a reader row, with no monotonicity
check; consequently uidnext is non-decreasing across a sequence of
operations whenever every installed value is at least the uidnext
current when it is applied. -/
theorem mailbox_uidnext_nondecreasing (m : MailboxState) (ops : List MailboxOp)
    (h : ∀ i (hi : i < ops.length),
      okStep (runOps m (ops.take i)).uidnext (ops.get ⟨i, hi⟩) = true) :
    m.uidnext ≤ (runOps m ops).uidnext := by
  induction ops generalizing m with
  | nil => exact Nat.le_refl _
  | cons op rest ih =>
      have h0 : okStep m.uidnext op = true := by
        have := h 0 (by simp)
        simpa [runOps] using this
      have hstep : m.uidnext ≤ (applyOp m op).uidnext := okStep_le m op h0
      have htail : (applyOp m op).uidnext ≤
          (runOps (applyOp m op) rest).uidnext := by
        apply ih
        intro i hi
        have := h (i + 1) (by simpa using Nat.succ_lt_succ hi)
        simpa [runOps, List.take_succ_cons] using this
      calc m.uidnext ≤ (applyOp m op).uidnext := hstep
        _ ≤ (runOps (applyOp m op) rest).uidnext := htail

/-- C1 witness: a concrete non-decreasing sequence through the
amended theorem. -/
theorem mailbox_uidnext_nondecreasing_witness :
    (MailboxState.init "/inbox").uidnext ≤
      (runOps (MailboxState.init "/inbox")
        [.setUidnext 5, .setUidnext 7]).uidnext :=
  mailbox_uidnext_nondecreasing (MailboxState.init "/inbox")
    [.setUidnext 5, .setUidnext 7] (by decide)

/-- C6 counterexample: with 131073 bytes allocated (one byte more than
the snapshot taken after select), nothing over 8 MiB, and exactly 60
seconds since the last collection, the claim's condition (c) holds -
at least 128 KiB allocated and at least 60 seconds passed - but the
code does not collect, because it requires strictly more than 60
seconds (now - gc > 60 at eventloop.cpp line 280). -/
theorem gc_at_exactly_60s_counterexample :
    gcClaimCondition 131072 131073 0 120 60 ∧
      gcRuns false 131072 131073 0 120 60 = false := by
  decide

/-- C6 amended: garbage collection runs if and only if stop() has not
been requested and (a) the allocation counter is nonzero and unchanged
since the post-select snapshot, or (b) over 8 MiB and over 20% of the
in-use memory have been allocated since the last collection, or (c) at
least 128 KiB have been allocated and strictly more than 60 seconds
have passed since the last collection. -/
theorem gc_condition_characterisation (stop : Bool)
    (alloc allocatedNow inUse now gc : Nat) :
    gcRuns stop alloc allocatedNow inUse now gc = true ↔
      (stop = false ∧
        ((alloc ≠ 0 ∧ allocatedNow = alloc) ∨
         (allocatedNow > 8*1024*1024 ∧ 5 * allocatedNow > inUse) ∨
         (allocatedNow ≥ 131072 ∧ now - gc > 60))) := by
  cases stop <;>
    simp [gcRuns, Bool.and_eq_true, Bool.or_eq_true, bne_iff_ne,
      beq_iff_eq, decide_eq_true_eq]
  omega

/-- C8: evaluation of Mailbox::view at the failing input.  The
source's view() compares the type against Ordinary, so it returns
false for a mailbox whose type is View and true for an Ordinary
mailbox - the opposite of its documented meaning ("Returns true if
this mailbox is really a view"). -/
theorem mailbox_view_returns_ordinary :
    MailboxState.view { MailboxState.init "/v" with mtype := .View } = false ∧
      MailboxState.view
        { MailboxState.init "/o" with mtype := .Ordinary } = true := by
  decide

/-- Helper: a valid header contains no individually-invalid field. -/
theorem valid_fields_valid (h : Header) (hv : h.valid = true) :
    ∀ f ∈ h.fields, f.fvalid = true := by
  intro f hf
  unfold Header.valid Header.verifyError at hv
  cases hfa : h.fields.find? (fun f => !f.fvalid) with
  | some g => rw [hfa] at hv; simp at hv
  | none =>
      have := List.find?_eq_none.mp hfa f hf
      simpa using this

/-- Helper: a valid header satisfies every row of the conditions table
that applies to its mode. -/
theorem valid_cond_bound (h : Header) (hv : h.valid = true) (c : Condition)
    (hc : c ∈ conditions) (hm : c.m = h.mode) :
    c.min ≤ occurrences c.t h ∧ occurrences c.t h ≤ c.max := by
  unfold Header.valid Header.verifyError at hv
  cases hfa : h.fields.find? (fun f => !f.fvalid) with
  | some g => rw [hfa] at hv; simp at hv
  | none =>
      rw [hfa] at hv
      cases hcc : conditions.find? (fun k =>
          k.m == h.mode &&
          (occurrences k.t h < k.min || occurrences k.t h > k.max)) with
      | some k => rw [hcc] at hv; simp at hv
      | none =>
          have hk := List.find?_eq_none.mp hcc c hc
          simp only [hm, beq_self_eq_true, Bool.true_and, Bool.or_eq_true,
            decide_eq_true_eq, not_or] at hk
          omega

/-- C7 counterexample: the claim requires exactly one From in every
valid header, but the From condition applies only in Rfc2822 mode; an
empty Mime-mode header is valid with zero From fields. -/
theorem header_mime_valid_without_from :
    (Header.empty .Mime).valid = true ∧
      occurrences .From (Header.empty .Mime) ≠ 1 := by
  decide

/-- C7 amended: valid() is true only if every field is individually
valid and the mode-applicable cardinality constraints hold - in
Rfc2822 mode exactly one From, exactly one Date and at most one each
of Sender, Reply-To, To, Cc, Bcc, Message-Id, Subject, References,
Mime-Version, Content-Type, Content-Transfer-Encoding and Return-Path;
in Mime mode no Mime-Version and at most one each of Content-Type and
Content-Transfer-Encoding. -/
theorem header_valid_cardinality (h : Header) (hv : h.valid = true) :
    (∀ f ∈ h.fields, f.fvalid = true) ∧
    (h.mode = .Rfc2822 →
      occurrences .From h = 1 ∧
      occurrences .Date h = 1 ∧
      occurrences .Sender h ≤ 1 ∧
      occurrences .ReplyTo h ≤ 1 ∧
      occurrences .To h ≤ 1 ∧
      occurrences .Cc h ≤ 1 ∧
      occurrences .Bcc h ≤ 1 ∧
      occurrences .MessageId h ≤ 1 ∧
      occurrences .Subject h ≤ 1 ∧
      occurrences .References h ≤ 1 ∧
      occurrences .MimeVersion h ≤ 1 ∧
      occurrences .ContentType h ≤ 1 ∧
      occurrences .ContentTransferEncoding h ≤ 1 ∧
      occurrences .ReturnPath h ≤ 1) ∧
    (h.mode = .Mime →
      occurrences .MimeVersion h = 0 ∧
      occurrences .ContentType h ≤ 1 ∧
      occurrences .ContentTransferEncoding h ≤ 1) := by
  refine ⟨valid_fields_valid h hv, fun hm => ?_, fun hm => ?_⟩
  · have c1 := valid_cond_bound h hv ⟨.From, 1, 1, .Rfc2822⟩ (by decide) hm.symm
    have c2 := valid_cond_bound h hv ⟨.Date, 1, 1, .Rfc2822⟩ (by decide) hm.symm
    have c3 := valid_cond_bound h hv ⟨.Sender, 0, 1, .Rfc2822⟩ (by decide) hm.symm
    have c4 := valid_cond_bound h hv ⟨.ReplyTo, 0, 1, .Rfc2822⟩ (by decide) hm.symm
    have c5 := valid_cond_bound h hv ⟨.To, 0, 1, .Rfc2822⟩ (by decide) hm.symm
    have c6 := valid_cond_bound h hv ⟨.Cc, 0, 1, .Rfc2822⟩ (by decide) hm.symm
    have c7 := valid_cond_bound h hv ⟨.Bcc, 0, 1, .Rfc2822⟩ (by decide) hm.symm
    have c8 := valid_cond_bound h hv ⟨.MessageId, 0, 1, .Rfc2822⟩ (by decide) hm.symm
    have c9 := valid_cond_bound h hv ⟨.Subject, 0, 1, .Rfc2822⟩ (by decide) hm.symm
    have c10 := valid_cond_bound h hv ⟨.References, 0, 1, .Rfc2822⟩ (by decide) hm.symm
    have c11 := valid_cond_bound h hv ⟨.MimeVersion, 0, 1, .Rfc2822⟩ (by decide) hm.symm
    have c12 := valid_cond_bound h hv ⟨.ContentType, 0, 1, .Rfc2822⟩ (by decide) hm.symm
    have c13 := valid_cond_bound h hv ⟨.ContentTransferEncoding, 0, 1, .Rfc2822⟩ (by decide) hm.symm
    have c14 := valid_cond_bound h hv ⟨.ReturnPath, 0, 1, .Rfc2822⟩ (by decide) hm.symm
    simp only at c1 c2 c3 c4 c5 c6 c7 c8 c9 c10 c11 c12 c13 c14
    refine ⟨?_, ?_, ?_, ?_, ?_, ?_, ?_, ?_, ?_, ?_, ?_, ?_, ?_, ?_⟩ <;> omega
  · have c1 := valid_cond_bound h hv ⟨.MimeVersion, 0, 0, .Mime⟩ (by decide) hm.symm
    have c2 := valid_cond_bound h hv ⟨.ContentType, 0, 1, .Mime⟩ (by decide) hm.symm
    have c3 := valid_cond_bound h hv ⟨.ContentTransferEncoding, 0, 1, .Mime⟩ (by decide) hm.symm
    simp only at c1 c2 c3
    refine ⟨?_, ?_, ?_⟩ <;> omega

/-- C7 witness: a concrete valid Rfc2822 header (one From, one Date)
run through the amended theorem. -/
theorem header_valid_cardinality_witness :
    (Header.mk .Rfc2822 [⟨.From, true, []⟩, ⟨.Date, true, []⟩]).valid = true ∧
      occurrences .From
        (Header.mk .Rfc2822 [⟨.From, true, []⟩, ⟨.Date, true, []⟩]) = 1 ∧
      occurrences .Date
        (Header.mk .Rfc2822 [⟨.From, true, []⟩, ⟨.Date, true, []⟩]) = 1 := by
  refine ⟨by decide, ?_, ?_⟩
  · exact ((header_valid_cardinality
      (Header.mk .Rfc2822 [⟨.From, true, []⟩, ⟨.Date, true, []⟩])
      (by decide)).2.1 rfl).1
  · exact ((header_valid_cardinality
      (Header.mk .Rfc2822 [⟨.From, true, []⟩, ⟨.Date, true, []⟩])
      (by decide)).2.1 rfl).2.1

/-- Helper: merging into the first field of a type keeps the field
count. -/
theorem mergeFirst_length (t : FieldType) (addrs : List Address)
    (l : List HField) : (mergeFirst t addrs l).length = l.length := by
  induction l with
  | nil => rfl
  | cons g rest ih =>
      by_cases hg : g.ftype = t
      · simp [mergeFirst, hg]
      · simp [mergeFirst, hg, ih]

/-- Helper: merging rewrites exactly the first field of the type,
appending the new addresses and uniquifying. -/
theorem mergeFirst_find (t : FieldType) (addrs : List Address)
    (l : List HField) (f : HField)
    (hf : l.find? (fun g => g.ftype == t) = some f) :
    (mergeFirst t addrs l).find? (fun g => g.ftype == t) =
      some { f with addresses := uniquify (f.addresses ++ addrs) } := by
  induction l with
  | nil => simp at hf
  | cons g rest ih =>
      by_cases hg : g.ftype = t
      · rw [List.find?_cons_of_pos _ (by simp [hg])] at hf
        injection hf with hf
        subst hf
        simp only [mergeFirst, hg, beq_self_eq_true, if_true]
        rw [List.find?_cons_of_pos _ (by simp [hg])]
      · rw [List.find?_cons_of_neg _ (by simp [hg])] at hf
        simp only [mergeFirst, hg]
        rw [if_neg (by simp [hg])]
        rw [List.find?_cons_of_neg _ (by simp [hg])]
        exact ih hf

/-- Helper: merging does not change any per-type occurrence count. -/
theorem mergeFirst_occurrences (t u : FieldType) (addrs : List Address)
    (l : List HField) :
    ((mergeFirst t addrs l).filter (fun f => f.ftype == u)).length =
      (l.filter (fun f => f.ftype == u)).length := by
  induction l with
  | nil => rfl
  | cons g rest ih =>
      by_cases hg : g.ftype = t
      · simp only [mergeFirst, hg, beq_self_eq_true, if_true, List.filter_cons]
        split <;> simp
      · simp only [mergeFirst, hg]
        rw [if_neg (by simp [hg])]
        simp only [List.filter_cons]
        split <;> simp [ih]

/-- Helper: uniquify produces addresses with pairwise distinct keys,
none of which was in the seen accumulator. -/
theorem uniquifyFrom_keys (l : List Address) (seen : List (String × String)) :
    ((uniquifyFrom seen l).map addrKey).Nodup ∧
      ∀ k ∈ (uniquifyFrom seen l).map addrKey, k ∉ seen := by
  induction l generalizing seen with
  | nil => simp [uniquifyFrom]
  | cons a rest ih =>
      by_cases ha : addrKey a ∈ seen
      · simpa [uniquifyFrom, ha] using ih seen
      · have ihh := ih (addrKey a :: seen)
        simp only [uniquifyFrom, ha, if_neg, List.map_cons, List.nodup_cons,
          List.mem_cons, if_false]
        refine ⟨⟨fun hmem => ?_, ihh.1⟩, fun k hk => ?_⟩
        · exact (ihh.2 _ hmem) (by simp)
        · rcases hk with hk | hk
          · exact hk ▸ ha
          · intro hks
            exact (ihh.2 k hk) (by simp [hks])

/-- Helper: uniquified address lists contain no duplicate keys. -/
theorem uniquify_keys_nodup (l : List Address) :
    ((uniquify l).map addrKey).Nodup :=
  (uniquifyFrom_keys l []).1

/-- Helper: one Header::add call keeps every merged address type at
no more than one field, given that held before the call. -/
theorem add_occurrences_le_one (h : Header) (hf : HField) (t : FieldType)
    (ht : t ∈ mergedAddressTypes)
    (hall : ∀ u ∈ mergedAddressTypes, occurrences u h ≤ 1) :
    occurrences t (h.add hf) ≤ 1 := by
  unfold Header.add
  split
  · next hcond =>
      show ((mergeFirst hf.ftype hf.addresses h.fields).filter
        (fun f => f.ftype == t)).length ≤ 1
      rw [mergeFirst_occurrences]
      exact hall t ht
  · next hcond =>
      show ((h.fields ++ [hf]).filter (fun f => f.ftype == t)).length ≤ 1
      rw [List.filter_append]
      by_cases hft : hf.ftype = t
      · have hdisj : (hf.ftype == .To || hf.ftype == .Cc || hf.ftype == .Bcc ||
            hf.ftype == .ReplyTo || hf.ftype == .From) = true := by
          simp only [mergedAddressTypes, List.mem_cons, List.mem_singleton,
            List.not_mem_nil, or_false] at ht
          rcases ht with h1|h1|h1|h1|h1 <;> simp [hft, h1]
        have hanyf : h.fields.any (fun f => f.ftype == hf.ftype) = false := by
          cases hany : h.fields.any (fun f => f.ftype == hf.ftype)
          · rfl
          · exact absurd (by simp [hdisj, hany]) hcond
        have hocc : (h.fields.filter (fun f => f.ftype == t)).length = 0 := by
          rw [List.length_eq_zero, List.filter_eq_nil_iff]
          intro f hfm
          have := List.any_eq_false.mp hanyf f hfm
          simpa [hft] using this
        simp [List.length_append, hocc, List.filter_cons, hft]
      · simp [hft]
        have := hall t ht
        simpa [occurrences] using this

/-- Helper: replaying any sequence of Header::add calls preserves the
at-most-one invariant for the merged address types. -/
theorem addAll_occurrences_le_one (hfs : List HField) (h : Header)
    (hall : ∀ u ∈ mergedAddressTypes, occurrences u h ≤ 1) :
    ∀ t ∈ mergedAddressTypes, occurrences t (h.addAll hfs) ≤ 1 := by
  induction hfs generalizing h with
  | nil => exact fun t ht => hall t ht
  | cons hf rest ih =>
      intro t ht
      have step : ∀ u ∈ mergedAddressTypes, occurrences u (h.add hf) ≤ 1 :=
        fun u hu => add_occurrences_le_one h hf u hu hall
      exact ih (h.add hf) step t ht

/-- C9: when a To/Cc/Bcc/Reply-To/From field is added to a header that
already holds a field of the same type, no field is appended (the
list length is unchanged), the existing field's addresses become the
old ones followed by the new ones with duplicates removed, and the
result carries no duplicate address; and any sequence of add() calls
starting from an empty header leaves at most one field of each of
these types. -/
theorem header_add_merge_invariant (h : Header) (hf : HField)
    (old : List Address) (m : HeaderMode) (hfs : List HField) (t : FieldType)
    (hmem : hf.ftype ∈ mergedAddressTypes)
    (hold : h.addressesOf hf.ftype = some old)
    (ht : t ∈ mergedAddressTypes) :
    (h.add hf).fields.length = h.fields.length ∧
    (h.add hf).addressesOf hf.ftype = some (uniquify (old ++ hf.addresses)) ∧
    ((uniquify (old ++ hf.addresses)).map addrKey).Nodup ∧
    occurrences t ((Header.empty m).addAll hfs) ≤ 1 := by
  obtain ⟨f, hfind, hfaddr⟩ : ∃ f,
      h.fields.find? (fun g => g.ftype == hf.ftype) = some f ∧
      f.addresses = old := by
    unfold Header.addressesOf at hold
    cases hx : h.fields.find? (fun g => g.ftype == hf.ftype) with
    | none => rw [hx] at hold; simp at hold
    | some f =>
        rw [hx] at hold
        simp at hold
        exact ⟨f, rfl, hold⟩
  have hdisj : (hf.ftype == .To || hf.ftype == .Cc || hf.ftype == .Bcc ||
      hf.ftype == .ReplyTo || hf.ftype == .From) = true := by
    simp only [mergedAddressTypes, List.mem_cons, List.mem_singleton,
      List.not_mem_nil, or_false] at hmem
    rcases hmem with h1|h1|h1|h1|h1 <;> simp [h1]
  have hp := List.find?_some hfind
  have hany : h.fields.any (fun g => g.ftype == hf.ftype) = true := by
    rw [List.any_eq_true]
    exact ⟨f, List.mem_of_find?_eq_some hfind, hp⟩
  have haddeq : h.add hf =
      { h with fields := mergeFirst hf.ftype hf.addresses h.fields } := by
    unfold Header.add
    rw [hdisj, hany]
    rfl
  refine ⟨?_, ?_, uniquify_keys_nodup _, ?_⟩
  · rw [haddeq]
    exact mergeFirst_length hf.ftype hf.addresses h.fields
  · rw [haddeq]
    unfold Header.addressesOf
    rw [mergeFirst_find hf.ftype hf.addresses h.fields f hfind]
    simp [hfaddr]
  · exact addAll_occurrences_le_one hfs (Header.empty m)
      (fun u _ => by simp [occurrences, Header.empty]) t ht

/-- C9 witness: merging a duplicate address into an existing To field
through the theorem at a concrete header. -/
theorem header_add_merge_invariant_witness :
    ((Header.mk .Rfc2822 [⟨.To, true, [⟨"", "a", "x.org"⟩]⟩]).add
        ⟨.To, true, [⟨"", "a", "X.ORG"⟩, ⟨"", "b", "y.org"⟩]⟩).fields.length =
      (Header.mk .Rfc2822 [⟨.To, true, [⟨"", "a", "x.org"⟩]⟩]).fields.length ∧
    ((Header.mk .Rfc2822 [⟨.To, true, [⟨"", "a", "x.org"⟩]⟩]).add
        ⟨.To, true, [⟨"", "a", "X.ORG"⟩, ⟨"", "b", "y.org"⟩]⟩).addressesOf .To =
      some (uniquify ([⟨"", "a", "x.org"⟩] ++
        [⟨"", "a", "X.ORG"⟩, ⟨"", "b", "y.org"⟩])) ∧
    ((uniquify ([Address.mk "" "a" "x.org"] ++
        [⟨"", "a", "X.ORG"⟩, ⟨"", "b", "y.org"⟩])).map addrKey).Nodup ∧
    occurrences .To ((Header.empty .Rfc2822).addAll
      [⟨.To, true, []⟩, ⟨.To, true, []⟩]) ≤ 1 :=
  header_add_merge_invariant
    (Header.mk .Rfc2822 [⟨.To, true, [⟨"", "a", "x.org"⟩]⟩])
    ⟨.To, true, [⟨"", "a", "X.ORG"⟩, ⟨"", "b", "y.org"⟩]⟩
    [⟨"", "a", "x.org"⟩] .Rfc2822
    [⟨.To, true, []⟩, ⟨.To, true, []⟩] .To
    (by decide) (by decide) (by decide)

/-- Helper: adds whose lowercased name differs from the lookup key do
not change Flag::id for that key. -/
theorem foldl_flagId_untouched (adds : List (String × Nat)) (st : FlagsState)
    (s : String) (h : ∀ p ∈ adds, asciiLower p.1 ≠ asciiLower s) :
    (adds.foldl (fun st p => st.add p.1 p.2) st).flagId s = st.flagId s := by
  induction adds generalizing st with
  | nil => rfl
  | cons p rest ih =>
      have hne := h p (by simp)
      have step : (st.add p.1 p.2).flagId s = st.flagId s := by
        unfold FlagsState.add FlagsState.flagId
        rw [List.find?_cons_of_neg _ (by simpa using hne)]
      rw [List.foldl_cons, ih (st.add p.1 p.2) (fun q hq => h q (by simp [hq]))]
      exact step

/-- Helper: adds whose id differs from the lookup id do not change
Flag::name for that id. -/
theorem foldl_flagName_untouched (adds : List (String × Nat)) (st : FlagsState)
    (i : Nat) (h : ∀ p ∈ adds, p.2 ≠ i) :
    (adds.foldl (fun st p => st.add p.1 p.2) st).flagName i = st.flagName i := by
  induction adds generalizing st with
  | nil => rfl
  | cons p rest ih =>
      have hne := h p (by simp)
      have step : (st.add p.1 p.2).flagName i = st.flagName i := by
        unfold FlagsState.add FlagsState.flagName
        rw [List.find?_cons_of_neg _ (by simpa using hne)]
      rw [List.foldl_cons, ih (st.add p.1 p.2) (fun q hq => h q (by simp [hq]))]
      exact step

/-- C10: after Flag::add(name, id), Flag::id answers id for every
string equal to name up to ASCII case, Flag::name answers name with
its case preserved, and Flag::id of Flag::name of id is id; a name
never added (up to ASCII case) resolves to 0 and an id never added
resolves to the empty string. -/
theorem flag_add_lookup (st : FlagsState) (adds : List (String × Nat))
    (name s s2 : String) (n i : Nat) :
    (asciiLower s = asciiLower name → (st.add name n).flagId s = n) ∧
    (st.add name n).flagName n = name ∧
    (st.add name n).flagId ((st.add name n).flagName n) = n ∧
    ((∀ p ∈ adds, asciiLower p.1 ≠ asciiLower s2) →
      (buildFlags adds).flagId s2 = 0) ∧
    ((∀ p ∈ adds, p.2 ≠ i) → (buildFlags adds).flagName i = "") := by
  have h2 : (st.add name n).flagName n = name := by
    unfold FlagsState.add FlagsState.flagName
    rw [List.find?_cons_of_pos _ (by simp)]
  refine ⟨fun hs => ?_, h2, ?_, fun h4 => ?_, fun h5 => ?_⟩
  · unfold FlagsState.add FlagsState.flagId
    rw [List.find?_cons_of_pos _ (by simp [hs])]
  · rw [h2]
    unfold FlagsState.add FlagsState.flagId
    rw [List.find?_cons_of_pos _ (by simp)]
  · unfold buildFlags
    rw [foldl_flagId_untouched adds FlagsState.setup s2 h4]
    rfl
  · unfold buildFlags
    rw [foldl_flagName_untouched adds FlagsState.setup i h5]
    rfl

/-- C10 witness: a concrete add followed by case-insensitive lookup,
and lookups that miss. -/
theorem flag_add_lookup_witness :
    (asciiLower "sEEN" = asciiLower "Seen" →
      (FlagsState.setup.add "Seen" 3).flagId "sEEN" = 3) ∧
    (FlagsState.setup.add "Seen" 3).flagName 3 = "Seen" ∧
    (FlagsState.setup.add "Seen" 3).flagId
      ((FlagsState.setup.add "Seen" 3).flagName 3) = 3 ∧
    ((∀ p ∈ [("Seen", 3)], asciiLower p.1 ≠ asciiLower "Draft") →
      (buildFlags [("Seen", 3)]).flagId "Draft" = 0) ∧
    ((∀ p ∈ [("Seen", 3)], p.2 ≠ 9) →
      (buildFlags [("Seen", 3)]).flagName 9 = "") :=
  flag_add_lookup FlagsState.setup [("Seen", 3)] "Seen" "sEEN" "Draft" 3 9

/-- Helper: any outcome other than failOther leaves the transaction's
failed state untouched. -/
theorem stepRound_txFailed_of_ne (st : CreatorState) (r : CreatorRound)
    (h : r.outcome ≠ .failOther) :
    (stepRound st r).txFailed = st.txFailed := by
  cases hout : r.outcome with
  | failOther => exact absurd hout h
  | success =>
      by_cases hdone : st.done <;> by_cases hsel : r.selectNeeded <;>
        by_cases hcopy : r.copyNeeded <;> by_cases hsp : st.sp <;>
          simp [stepRound, hout, hdone, hsel, hcopy, hsp]
  | failConstraint =>
      by_cases hdone : st.done <;> by_cases hsel : r.selectNeeded <;>
        by_cases hcopy : r.copyNeeded <;> by_cases hsp : st.sp <;>
          simp [stepRound, hout, hdone, hsel, hcopy, hsp]

/-- Helper: a run in which no COPY fails outside the guarded
constraint never poisons the transaction. -/
theorem runRounds_txFailed (rs : List CreatorRound) (st : CreatorState)
    (hall : ∀ x ∈ rs, x.outcome ≠ .failOther) (h : st.txFailed = false) :
    (runRounds st rs).txFailed = false := by
  induction rs generalizing st with
  | nil => exact h
  | cons r rest ih =>
      have hstep : (stepRound st r).txFailed = st.txFailed :=
        stepRound_txFailed_of_ne st r (hall r (by simp))
      exact ih (stepRound st r) (fun x hx => hall x (by simp [hx]))
        (hstep.trans h)

/-- C3: a COPY failing with the constraint named at construction makes
the creator enqueue ROLLBACK TO SAVEPOINT and continue with done still
false - the next round starts again from makeSelect - while the
transaction's failed state is untouched; a COPY failing any other way
sets done and poisons the transaction; and a whole run without such a
failure leaves the transaction non-failed. -/
theorem creator_constraint_race_recovery (st : CreatorState) (r : CreatorRound)
    (rs : List CreatorRound)
    (hdone : st.done = false) (hsel : r.selectNeeded = true)
    (hcopy : r.copyNeeded = true) :
    (stepRound st { r with outcome := .failConstraint }).enqueued =
        st.enqueued ++ ["select " ++ st.table] ++
          (if st.sp then [] else ["savepoint " ++ st.table ++ "_creator"]) ++
          ["copy " ++ st.table,
           "rollback to savepoint " ++ st.table ++ "_creator"] ∧
    (stepRound st { r with outcome := .failConstraint }).done = false ∧
    (stepRound st { r with outcome := .failConstraint }).txFailed =
      st.txFailed ∧
    (stepRound st { r with outcome := .failOther }).done = true ∧
    (stepRound st { r with outcome := .failOther }).txFailed = true ∧
    ((∀ x ∈ rs, x.outcome ≠ .failOther) → st.txFailed = false →
      (runRounds st rs).txFailed = false) := by
  refine ⟨?_, ?_, ?_, ?_, ?_, fun hall hok => runRounds_txFailed rs st hall hok⟩
  all_goals
    by_cases hsp : st.sp <;>
      simp [stepRound, hdone, hsel, hcopy, hsp, List.append_assoc]

/-- C3 witness: a creator that loses one race, retries and succeeds,
pushed through the theorem at concrete values. -/
theorem creator_constraint_race_recovery_witness :
    (stepRound (CreatorState.start "flag_names")
        { selectNeeded := true, copyNeeded := true,
          outcome := .failConstraint }).enqueued =
      (CreatorState.start "flag_names").enqueued ++ ["select flag_names"] ++
        (if (CreatorState.start "flag_names").sp then []
         else ["savepoint flag_names_creator"]) ++
        ["copy flag_names", "rollback to savepoint flag_names_creator"] ∧
    (stepRound (CreatorState.start "flag_names")
        { selectNeeded := true, copyNeeded := true,
          outcome := .failConstraint }).done = false ∧
    (stepRound (CreatorState.start "flag_names")
        { selectNeeded := true, copyNeeded := true,
          outcome := .failConstraint }).txFailed =
      (CreatorState.start "flag_names").txFailed ∧
    (stepRound (CreatorState.start "flag_names")
        { selectNeeded := true, copyNeeded := true,
          outcome := .failOther }).done = true ∧
    (stepRound (CreatorState.start "flag_names")
        { selectNeeded := true, copyNeeded := true,
          outcome := .failOther }).txFailed = true ∧
    ((∀ x ∈ [CreatorRound.mk true true .failConstraint,
             CreatorRound.mk true false .success],
        x.outcome ≠ .failOther) →
      (CreatorState.start "flag_names").txFailed = false →
      (runRounds (CreatorState.start "flag_names")
        [CreatorRound.mk true true .failConstraint,
         CreatorRound.mk true false .success]).txFailed = false) :=
  creator_constraint_race_recovery (CreatorState.start "flag_names")
    { selectNeeded := true, copyNeeded := true, outcome := .success }
    [CreatorRound.mk true true .failConstraint,
     CreatorRound.mk true false .success]
    rfl rfl rfl

/-- C4: with the -n option, undelete rolls the transaction back
instead of committing it, so the database - in particular the mailbox
row and the deleted_messages table - is exactly its pre-command state,
on every input. -/
theorem undelete_dry_run_rolls_back (db : Db) (mid : Nat) (s : List Nat) :
    undeleteRun db mid s true = (db, false) := by
  unfold undeleteRun
  cases db.mailboxes.find? (fun r => r.id == mid) with
  | none => rfl
  | some row =>
      by_cases hempty : (db.deletedMessages.filter
          (fun r => r.mailbox == mid && s.contains r.uid)).isEmpty <;>
        simp [hempty]

/-- C5: after the first batch, the next batch size is the claim's raw
formula (prev*30/e for positive elapsed e, twice prev for zero
elapsed, 128 for negative elapsed) clamped to at most prev*3, at most
prev+2000, at least 128 and at most maxBatchSize; and a remaining
queue of at most five quarters of the batch is absorbed whole. -/
theorem fetcher_batch_sizing (prev now last maxB remaining : Nat)
    (hprev : 128 ≤ prev) (hmax : 128 ≤ maxB) :
    prepareBatchSize prev now last maxB =
      min maxB (max 128 (min (prev + 2000) (min (prev * 3)
        (if now = last then prev * 2
         else if now < last then 128
         else prev * 30 / (now - last))))) ∧
    prepareBatchSize prev now last maxB ≤ prev * 3 ∧
    prepareBatchSize prev now last maxB ≤ prev + 2000 ∧
    128 ≤ prepareBatchSize prev now last maxB ∧
    prepareBatchSize prev now last maxB ≤ maxB ∧
    (remaining ≤ prepareBatchSize prev now last maxB * 5 / 4 →
      absorbTail remaining (prepareBatchSize prev now last maxB) =
        remaining) := by
  unfold prepareBatchSize absorbTail
  generalize (if now = last then prev * 2
      else if now < last then 128
      else prev * 30 / (now - last)) = raw
  dsimp only
  split_ifs <;> omega

/-- C5 witness: a 1024-message batch that took 60 seconds is resized
to 512 through the theorem at concrete inputs. -/
theorem fetcher_batch_sizing_witness :
    128 ≤ (1024 : Nat) ∧ 128 ≤ (32768 : Nat) ∧
    (prepareBatchSize 1024 100 40 32768 =
      min 32768 (max 128 (min (1024 + 2000) (min (1024 * 3)
        (if (100 : Nat) = 40 then 1024 * 2
         else if (100 : Nat) < 40 then 128
         else 1024 * 30 / (100 - 40))))) ∧
    prepareBatchSize 1024 100 40 32768 ≤ 1024 * 3 ∧
    prepareBatchSize 1024 100 40 32768 ≤ 1024 + 2000 ∧
    128 ≤ prepareBatchSize 1024 100 40 32768 ∧
    prepareBatchSize 1024 100 40 32768 ≤ 32768 ∧
    (600 ≤ prepareBatchSize 1024 100 40 32768 * 5 / 4 →
      absorbTail 600 (prepareBatchSize 1024 100 40 32768) = 600)) :=
  ⟨by decide, by decide,
   fetcher_batch_sizing 1024 100 40 32768 600 (by decide) (by decide)⟩

set_option maxRecDepth 100000 in
/-- C2: evaluation of the pipeline at the failing input.  The message
is accepted (no parse error), its tree is a multipart/mixed with one
text/plain leaf whose decoded text is the line made of two hyphens and
the boundary - the quoted-printable encoding hid it from the boundary
scanner - but parseBodypart drops the now-unneeded
Content-Transfer-Encoding, so asText emits that line in the clear and
the re-parse swallows it as a part delimiter: the re-parsed leaf's
decoded text is empty.  The round-trip property the claim states is
therefore false on the code at this input. -/
theorem roundtrip_loses_boundary_text :
    (parseMessageF c2Fuel msgB).2 = "" ∧
    summarize c2Fuel 0 (parseMessageF c2Fuel msgB).1 =
      [(0, 1, "multipart", "mixed", ""), (1, 0, "text", "plain", "--xyz")] ∧
    summarize c2Fuel 0
        (parseMessageF c2Fuel
          (messageAsText c2Fuel (parseMessageF c2Fuel msgB).1)).1 =
      [(0, 1, "multipart", "mixed", ""), (1, 0, "text", "plain", "")] ∧
    ¬ roundTripPreserved msgB := by
  have e1 : (parseMessageF c2Fuel msgB).2 = "" := by decide
  have e2 : summarize c2Fuel 0 (parseMessageF c2Fuel msgB).1 =
      [(0, 1, "multipart", "mixed", ""),
       (1, 0, "text", "plain", "--xyz")] := by decide
  have e3 : summarize c2Fuel 0
      (parseMessageF c2Fuel
        (messageAsText c2Fuel (parseMessageF c2Fuel msgB).1)).1 =
      [(0, 1, "multipart", "mixed", ""),
       (1, 0, "text", "plain", "")] := by decide
  refine ⟨e1, e2, e3, fun hrt => ?_⟩
  have h1 := hrt e1
  rw [e2, e3] at h1
  simp at h1

end Aox
